import Mathlib

/-!
# CHIP-8 interpreter core: shallow embedding and verified properties

The machine state of `class Chip8` (Chip8.hpp) is a structure of natural numbers and
functions from indices to natural numbers.  Every store into a fixed-width C++ object is
written with an explicit `% 2^w`; every array access that the C++ performs without a bounds
check is guarded here, and an access outside the array (undefined behaviour in C++) is a
`Fault`.  Handlers that cannot leave their arrays are total functions.

The sources spell a few names inconsistently (`Chip8::table0` for the declared `Table0`,
`Chip8::7xkk` for `OP_7xkk`, `regsiters`, the undeclared `DISPLAY_WIDTH`, `DISPLAY_HEIGHT`
and `width`); the embedding reads each as the declared member or, for the three undeclared
constants, as the value the specification gives.
-/

/-! ## Constants (Chip8.hpp, Chip8.cpp) -/

abbrev KEY_COUNT : Nat := 16
abbrev MEMORY_SIZE : Nat := 4096
abbrev REGISTER_COUNT : Nat := 16
abbrev STACK_LEVELS : Nat := 16
abbrev VIDEO_HEIGHT : Nat := 32
abbrev VIDEO_WIDTH : Nat := 64
abbrev START_ADDRESS : Nat := 0x200
abbrev FONTSET_SIZE : Nat := 80
abbrev FONTSET_START_ADDRESS : Nat := 0x50

/-- Modelled from the spec: `DISPLAY_WIDTH` is used by `OP_Dxyn` but declared nowhere in the
sources; the spec draws at `register[x] mod 64` on a 64×32 grid. -/
abbrev DISPLAY_WIDTH : Nat := 64

/-- Modelled from the spec: `DISPLAY_HEIGHT` is used by `OP_Dxyn` but declared nowhere in the
sources; the spec draws at `register[y] mod 32` on a 64×32 grid. -/
abbrev DISPLAY_HEIGHT : Nat := 32

/-- Modelled from the spec: `width` is used by the column loop of `OP_Dxyn` but declared
nowhere in the sources; the spec says each sprite byte is a row of 8 horizontal pixel bits. -/
abbrev width : Nat := 8

/-- The 80 bytes of `fontset`. -/
def fontset : List Nat :=
  [0xF0, 0x90, 0x90, 0x90, 0xF0,   -- 0
   0x20, 0x60, 0x20, 0x20, 0x70,   -- 1
   0xF0, 0x10, 0xF0, 0x80, 0xF0,   -- 2
   0xF0, 0x10, 0xF0, 0x10, 0xF0,   -- 3
   0x90, 0x90, 0xF0, 0x10, 0x10,   -- 4
   0xF0, 0x80, 0xF0, 0x10, 0xF0,   -- 5
   0xF0, 0x80, 0xF0, 0x90, 0xF0,   -- 6
   0xF0, 0x10, 0x20, 0x40, 0x40,   -- 7
   0xF0, 0x90, 0xF0, 0x90, 0xF0,   -- 8
   0xF0, 0x90, 0xF0, 0x10, 0xF0,   -- 9
   0xF0, 0x90, 0xF0, 0x90, 0x90,   -- A
   0xE0, 0x90, 0xE0, 0x90, 0xE0,   -- B
   0xF0, 0x80, 0x80, 0x80, 0xF0,   -- C
   0xE0, 0x90, 0x90, 0x90, 0xE0,   -- D
   0xF0, 0x80, 0xF0, 0x80, 0xF0,   -- E
   0xF0, 0x80, 0xF0, 0x80, 0x80]   -- F

/-! ## Machine state -/

/-- The data members of `class Chip8`.  `registers`, `memory`, `stack`, `keypad` and
`display` are the arrays of 16 bytes, 4096 bytes, 16 half-words, 16 bytes and 64*32 words;
`randGen` is the sequence of bytes that `randByte(randGen)` is going to return. -/
structure Chip8 where
  registers : Nat → Nat
  memory : Nat → Nat
  index : Nat
  counter : Nat
  stack : Nat → Nat
  sp : Nat
  delayTimer : Nat
  soundTimer : Nat
  keypad : Nat → Nat
  display : Nat → Nat
  opcode : Nat
  randGen : Nat → Nat

/-- An access outside one of the fixed-size arrays, or a call through a null
member-function pointer: the places where the C++ has undefined behaviour. -/
inductive Fault where
  | memoryOutOfBounds
  | stackOutOfBounds
  | keypadOutOfBounds
  | displayOutOfBounds
  | tableOutOfBounds
  | nullHandler
  | nestedDispatch
  deriving DecidableEq, Repr

/-- The loop `for (i = 0; i < n; ++i) body(i)` whose body may fault. -/
def forLoop {σ : Type} (body : Nat → σ → Except Fault σ) : Nat → σ → Except Fault σ
  | 0, s => .ok s
  | n + 1, s =>
    match forLoop body n s with
    | .ok t => body n t
    | .error e => .error e

/-- The loop `for (i = 0; i < n; ++i) body(i)` whose body cannot fault. -/
def forLoopTotal {σ : Type} (body : Nat → σ → σ) : Nat → σ → σ
  | 0, s => s
  | n + 1, s => body n (forLoopTotal body n s)

/-! ## Dispatch tables -/

/-- The member functions a `Chip8Func` pointer can point to. -/
inductive Chip8Func where
  | Table0 | Table8 | TableE | TableF
  | OP_NULL | OP_00E0 | OP_00EE | OP_1nnn | OP_2nnn | OP_3xkk | OP_4xkk | OP_5xy0
  | OP_6xkk | OP_7xkk | OP_8xy0 | OP_8xy1 | OP_8xy2 | OP_8xy3 | OP_8xy4 | OP_8xy5
  | OP_8xy6 | OP_8xy7 | OP_8xyE | OP_9xy0 | OP_Annn | OP_Bnnn | OP_Cxkk | OP_Dxyn
  | OP_Ex9E | OP_ExA1 | OP_Fx07 | OP_Fx0A | OP_Fx15 | OP_Fx18 | OP_Fx1E | OP_Fx29
  | OP_Fx33 | OP_Fx55 | OP_Fx65
  deriving DecidableEq, Repr

/-- The four dispatchers `Table0`, `Table8`, `TableE`, `TableF`, as opposed to the
instruction handlers. -/
def Chip8Func.isDispatcher : Chip8Func → Bool
  | .Table0 | .Table8 | .TableE | .TableF => true
  | _ => false

/-- The default member initialiser `{&Chip8::OP_NULL}`: aggregate initialisation sets
entry 0 and value-initialises every other entry, which for a pointer to member is null. -/
def tableInit : Nat → Option Chip8Func :=
  fun i => if i = 0 then some Chip8Func.OP_NULL else none

/-- The assignment `t[i] = &Chip8::f`. -/
def assign (i : Nat) (f : Chip8Func) (t : Nat → Option Chip8Func) : Nat → Option Chip8Func :=
  fun j => if j = i then some f else t j

/-- The array `table[0xF + 1]` after the constructor. -/
def table : Nat → Option Chip8Func :=
  tableInit
    |> assign 0x0 .Table0 |> assign 0x1 .OP_1nnn |> assign 0x2 .OP_2nnn
    |> assign 0x3 .OP_3xkk |> assign 0x4 .OP_4xkk |> assign 0x5 .OP_5xy0
    |> assign 0x6 .OP_6xkk |> assign 0x7 .OP_7xkk |> assign 0x8 .Table8
    |> assign 0x9 .OP_9xy0 |> assign 0xA .OP_Annn |> assign 0xB .OP_Bnnn
    |> assign 0xC .OP_Cxkk |> assign 0xD .OP_Dxyn |> assign 0xE .TableE
    |> assign 0xF .TableF

/-- The array `table0[0xE + 1]` after the constructor. -/
def table0 : Nat → Option Chip8Func :=
  tableInit |> assign 0x0 .OP_00E0 |> assign 0xE .OP_00EE

/-- The array `table8[0xE + 1]` after the constructor. -/
def table8 : Nat → Option Chip8Func :=
  tableInit
    |> assign 0x0 .OP_8xy0 |> assign 0x1 .OP_8xy1 |> assign 0x2 .OP_8xy2
    |> assign 0x3 .OP_8xy3 |> assign 0x4 .OP_8xy4 |> assign 0x5 .OP_8xy5
    |> assign 0x6 .OP_8xy6 |> assign 0x7 .OP_8xy7 |> assign 0xE .OP_8xyE

/-- The array `tableE[0xE + 1]` after the constructor. -/
def tableE : Nat → Option Chip8Func :=
  tableInit |> assign 0x1 .OP_ExA1 |> assign 0xE .OP_Ex9E

/-- The array `tableF[0x65 + 1]` after the constructor. -/
def tableF : Nat → Option Chip8Func :=
  tableInit
    |> assign 0x07 .OP_Fx07 |> assign 0x0A .OP_Fx0A |> assign 0x15 .OP_Fx15
    |> assign 0x18 .OP_Fx18 |> assign 0x1E .OP_Fx1E |> assign 0x29 .OP_Fx29
    |> assign 0x33 .OP_Fx33 |> assign 0x55 .OP_Fx55 |> assign 0x65 .OP_Fx65

/-- Reading entry `i` of a table of `size` entries in order to call through it. -/
def fetchHandler (t : Nat → Option Chip8Func) (size i : Nat) : Except Fault Chip8Func :=
  if i < size then
    match t i with
    | some f => .ok f
    | none => .error .nullHandler
  else .error .tableOutOfBounds

/-! ## Instruction handlers (Chip8.cpp) -/

/-- Handler `OP_NULL`: does nothing. -/
def Chip8.OP_NULL (s : Chip8) : Chip8 := s

/-- Handler `OP_00E0` (CLS): `memset(display, 0, sizeof(display))`. -/
def Chip8.OP_00E0 (s : Chip8) : Chip8 :=
  { s with display := fun _ => 0 }

/-- Handler `OP_00EE` (RET): `--sp; counter = stack[sp];` with `sp` a `uint8_t`. -/
def Chip8.OP_00EE (s : Chip8) : Except Fault Chip8 :=
  let s1 := { s with sp := (s.sp + 255) % 256 }
  if s1.sp < STACK_LEVELS then .ok { s1 with counter := s1.stack s1.sp }
  else .error .stackOutOfBounds

/-- Handler `OP_1nnn` (JP addr). -/
def Chip8.OP_1nnn (s : Chip8) : Chip8 :=
  let address := s.opcode &&& 0x0FFF
  { s with counter := address }

/-- Handler `OP_2nnn` (CALL addr): `stack[sp] = counter; ++sp; counter = address;`. -/
def Chip8.OP_2nnn (s : Chip8) : Except Fault Chip8 :=
  let address := s.opcode &&& 0x0FFF
  if s.sp < STACK_LEVELS then
    let s1 := { s with stack := Function.update s.stack s.sp s.counter }
    let s2 := { s1 with sp := (s1.sp + 1) % 256 }
    .ok { s2 with counter := address }
  else .error .stackOutOfBounds

/-- Handler `OP_3xkk` (SE Vx, byte). -/
def Chip8.OP_3xkk (s : Chip8) : Chip8 :=
  let Vx := (s.opcode &&& 0x0F00) >>> 8
  let byte := s.opcode &&& 0x00FF
  if s.registers Vx = byte then { s with counter := (s.counter + 2) % 65536 } else s

/-- Handler `OP_4xkk` (SNE Vx, byte). -/
def Chip8.OP_4xkk (s : Chip8) : Chip8 :=
  let Vx := (s.opcode &&& 0x0F00) >>> 8
  let byte := s.opcode &&& 0x00FF
  if s.registers Vx ≠ byte then { s with counter := (s.counter + 2) % 65536 } else s

/-- Handler `OP_5xy0` (SE Vx, Vy). -/
def Chip8.OP_5xy0 (s : Chip8) : Chip8 :=
  let Vx := (s.opcode &&& 0x0F00) >>> 8
  let Vy := (s.opcode &&& 0x00F0) >>> 4
  if s.registers Vx = s.registers Vy then { s with counter := (s.counter + 2) % 65536 } else s

/-- Handler `OP_6xkk` (LD Vx, byte). -/
def Chip8.OP_6xkk (s : Chip8) : Chip8 :=
  let Vx := (s.opcode &&& 0x0F00) >>> 8
  let byte := s.opcode &&& 0x00FF
  { s with registers := Function.update s.registers Vx byte }

/-- Handler `OP_7xkk` (ADD Vx, byte): `registers[Vx] += byte` on a `uint8_t`. -/
def Chip8.OP_7xkk (s : Chip8) : Chip8 :=
  let Vx := (s.opcode &&& 0x0F00) >>> 8
  let byte := s.opcode &&& 0x00FF
  { s with registers := Function.update s.registers Vx ((s.registers Vx + byte) % 256) }

/-- Handler `OP_8xy0` (LD Vx, Vy). -/
def Chip8.OP_8xy0 (s : Chip8) : Chip8 :=
  let Vx := (s.opcode &&& 0x0F00) >>> 8
  let Vy := (s.opcode &&& 0x00F0) >>> 4
  { s with registers := Function.update s.registers Vx (s.registers Vy) }

/-- Handler `OP_8xy1` (OR Vx, Vy). -/
def Chip8.OP_8xy1 (s : Chip8) : Chip8 :=
  let Vx := (s.opcode &&& 0x0F00) >>> 8
  let Vy := (s.opcode &&& 0x00F0) >>> 4
  { s with registers := Function.update s.registers Vx (s.registers Vx ||| s.registers Vy) }

/-- Handler `OP_8xy2` (AND Vx, Vy). -/
def Chip8.OP_8xy2 (s : Chip8) : Chip8 :=
  let Vx := (s.opcode &&& 0x0F00) >>> 8
  let Vy := (s.opcode &&& 0x00F0) >>> 4
  { s with registers := Function.update s.registers Vx (s.registers Vx &&& s.registers Vy) }

/-- Handler `OP_8xy3` (XOR Vx, Vy). -/
def Chip8.OP_8xy3 (s : Chip8) : Chip8 :=
  let Vx := (s.opcode &&& 0x0F00) >>> 8
  let Vy := (s.opcode &&& 0x00F0) >>> 4
  { s with registers := Function.update s.registers Vx (s.registers Vx ^^^ s.registers Vy) }

/-- Handler `OP_8xy4` (ADD Vx, Vy): the sum is a `uint16_t`, the flag is written first and
the destination last. -/
def Chip8.OP_8xy4 (s : Chip8) : Chip8 :=
  let Vx := (s.opcode &&& 0x0F00) >>> 8
  let Vy := (s.opcode &&& 0x00F0) >>> 4
  let sum := (s.registers Vx + s.registers Vy) % 65536
  let s1 :=
    if sum > 255 then { s with registers := Function.update s.registers 0xF 1 }
    else { s with registers := Function.update s.registers 0xF 0 }
  { s1 with registers := Function.update s1.registers Vx (sum &&& 0xFF) }

/-- Handler `OP_8xy5` (SUB Vx, Vy): the difference is a `uint8_t`; the test compares it with
the minuend; the flag is written first and the destination last. -/
def Chip8.OP_8xy5 (s : Chip8) : Chip8 :=
  let Vx := (s.opcode &&& 0x0F00) >>> 8
  let Vy := (s.opcode &&& 0x00F0) >>> 4
  let difference := (s.registers Vx + 256 - s.registers Vy % 256) % 256
  let s1 :=
    if difference < s.registers Vx then { s with registers := Function.update s.registers 0xF 1 }
    else { s with registers := Function.update s.registers 0xF 0 }
  { s1 with registers := Function.update s1.registers Vx difference }

/-- Handler `OP_8xy6` (SHR Vx): the flag is written before the shifted register is read. -/
def Chip8.OP_8xy6 (s : Chip8) : Chip8 :=
  let Vx := (s.opcode &&& 0x0F00) >>> 8
  let s1 := { s with registers := Function.update s.registers 0xF (s.registers Vx &&& 0x1) }
  { s1 with registers := Function.update s1.registers Vx (s1.registers Vx >>> 1) }

/-- Handler `OP_8xy7` (SUBN Vx, Vy): the flag is written first, then the operands of the
subtraction are read from the register file. -/
def Chip8.OP_8xy7 (s : Chip8) : Chip8 :=
  let Vx := (s.opcode &&& 0x0F00) >>> 8
  let Vy := (s.opcode &&& 0x00F0) >>> 4
  let s1 :=
    if s.registers Vy > s.registers Vx then
      { s with registers := Function.update s.registers 0xF 1 }
    else { s with registers := Function.update s.registers 0xF 0 }
  { s1 with registers :=
      Function.update s1.registers Vx ((s1.registers Vy + 256 - s1.registers Vx % 256) % 256) }

/-- Handler `OP_8xyE` (SHL Vx): the flag is written before the shifted register is read. -/
def Chip8.OP_8xyE (s : Chip8) : Chip8 :=
  let Vx := (s.opcode &&& 0x0F00) >>> 8
  let s1 :=
    { s with registers := Function.update s.registers 0xF ((s.registers Vx &&& 0x80) >>> 7) }
  { s1 with registers := Function.update s1.registers Vx ((s1.registers Vx <<< 1) % 256) }

/-- Handler `OP_9xy0` (SNE Vx, Vy). -/
def Chip8.OP_9xy0 (s : Chip8) : Chip8 :=
  let Vx := (s.opcode &&& 0x0F00) >>> 8
  let Vy := (s.opcode &&& 0x00F0) >>> 4
  if s.registers Vx ≠ s.registers Vy then { s with counter := (s.counter + 2) % 65536 } else s

/-- Handler `OP_Annn` (LD I, addr). -/
def Chip8.OP_Annn (s : Chip8) : Chip8 :=
  let addr := s.opcode &&& 0x0FFF
  { s with index := addr }

/-- Handler `OP_Bnnn` (JP V0, addr): the sum is stored in the `uint16_t` counter. -/
def Chip8.OP_Bnnn (s : Chip8) : Chip8 :=
  let addr := s.opcode &&& 0x0FFF
  { s with counter := (s.registers 0x0 + addr) % 65536 }

/-- Handler `OP_Cxkk` (RND Vx, byte): takes the next byte of the generator. -/
def Chip8.OP_Cxkk (s : Chip8) : Chip8 :=
  let Vx := (s.opcode &&& 0x0F00) >>> 8
  let byte := s.opcode &&& 0x00FF
  { s with
    registers := Function.update s.registers Vx ((s.randGen 0 % 256) &&& byte)
    randGen := fun n => s.randGen (n + 1) }

/-- The `uint8_t spritePixel = spriteByte & (0x80u >> col)` of `OP_Dxyn`. -/
def spritePixel (spriteByte col : Nat) : Nat := (spriteByte &&& (0x80 >>> col)) % 256

/-- The body of the column loop of `OP_Dxyn` at sprite row `row` and column `col`: the cell
`display[(yPos + row) * DISPLAY_WIDTH + (xPos + col)]` is read and written only when the
sprite pixel is on. -/
def Chip8.drawPixel (spriteByte xPos yPos row col : Nat) (s : Chip8) : Except Fault Chip8 :=
  let spritePixel := spritePixel spriteByte col
  let screenPixel := (yPos + row) * DISPLAY_WIDTH + (xPos + col)
  if spritePixel ≠ 0 then
    if screenPixel < VIDEO_WIDTH * VIDEO_HEIGHT then
      let s1 :=
        if s.display screenPixel = 0xFFFFFFFF then
          { s with registers := Function.update s.registers 0xF 1 }
        else s
      .ok { s1 with
        display := Function.update s1.display screenPixel (s1.display screenPixel ^^^ 0xFFFFFFFF) }
    else .error .displayOutOfBounds
  else .ok s

/-- The body of the row loop of `OP_Dxyn`: reads `memory[index + row]` and runs the column
loop over `width` columns. -/
def Chip8.drawRow (xPos yPos row : Nat) (s : Chip8) : Except Fault Chip8 :=
  if s.index + row < MEMORY_SIZE then
    let spriteByte := s.memory (s.index + row)
    forLoop (fun col t => Chip8.drawPixel spriteByte xPos yPos row col t) width s
  else .error .memoryOutOfBounds

/-- Handler `OP_Dxyn` (DRW Vx, Vy, nibble). -/
def Chip8.OP_Dxyn (s : Chip8) : Except Fault Chip8 :=
  let Vx := (s.opcode &&& 0x0F00) >>> 8
  let Vy := (s.opcode &&& 0x00F0) >>> 4
  let height := s.opcode &&& 0x000F
  let xPos := s.registers Vx % DISPLAY_WIDTH
  let yPos := s.registers Vy % DISPLAY_HEIGHT
  let s1 := { s with registers := Function.update s.registers 0xF 0 }
  forLoop (fun row t => Chip8.drawRow xPos yPos row t) height s1

/-- Handler `OP_Ex9E` (SKP Vx): reads `keypad[registers[Vx]]`. -/
def Chip8.OP_Ex9E (s : Chip8) : Except Fault Chip8 :=
  let Vx := (s.opcode &&& 0x0F00) >>> 8
  let key := s.registers Vx
  if key < KEY_COUNT then
    if s.keypad key ≠ 0 then .ok { s with counter := (s.counter + 2) % 65536 } else .ok s
  else .error .keypadOutOfBounds

/-- Handler `OP_ExA1` (SKNP Vx): reads `keypad[registers[Vx]]`. -/
def Chip8.OP_ExA1 (s : Chip8) : Except Fault Chip8 :=
  let Vx := (s.opcode &&& 0x0F00) >>> 8
  let key := s.registers Vx
  if key < KEY_COUNT then
    if s.keypad key = 0 then .ok { s with counter := (s.counter + 2) % 65536 } else .ok s
  else .error .keypadOutOfBounds

/-- Handler `OP_Fx07` (LD Vx, DT). -/
def Chip8.OP_Fx07 (s : Chip8) : Chip8 :=
  let Vx := (s.opcode &&& 0x0F00) >>> 8
  { s with registers := Function.update s.registers Vx s.delayTimer }

/-- Handler `OP_Fx0A` (LD Vx, K): the chain of sixteen tests, and `counter -= 2` on the
`uint16_t` counter when none succeeds. -/
def Chip8.OP_Fx0A (s : Chip8) : Chip8 :=
  let Vx := (s.opcode &&& 0x0F00) >>> 8
  if s.keypad 0 ≠ 0 then { s with registers := Function.update s.registers Vx 0 }
  else if s.keypad 1 ≠ 0 then { s with registers := Function.update s.registers Vx 1 }
  else if s.keypad 2 ≠ 0 then { s with registers := Function.update s.registers Vx 2 }
  else if s.keypad 3 ≠ 0 then { s with registers := Function.update s.registers Vx 3 }
  else if s.keypad 4 ≠ 0 then { s with registers := Function.update s.registers Vx 4 }
  else if s.keypad 5 ≠ 0 then { s with registers := Function.update s.registers Vx 5 }
  else if s.keypad 6 ≠ 0 then { s with registers := Function.update s.registers Vx 6 }
  else if s.keypad 7 ≠ 0 then { s with registers := Function.update s.registers Vx 7 }
  else if s.keypad 8 ≠ 0 then { s with registers := Function.update s.registers Vx 8 }
  else if s.keypad 9 ≠ 0 then { s with registers := Function.update s.registers Vx 9 }
  else if s.keypad 10 ≠ 0 then { s with registers := Function.update s.registers Vx 10 }
  else if s.keypad 11 ≠ 0 then { s with registers := Function.update s.registers Vx 11 }
  else if s.keypad 12 ≠ 0 then { s with registers := Function.update s.registers Vx 12 }
  else if s.keypad 13 ≠ 0 then { s with registers := Function.update s.registers Vx 13 }
  else if s.keypad 14 ≠ 0 then { s with registers := Function.update s.registers Vx 14 }
  else if s.keypad 15 ≠ 0 then { s with registers := Function.update s.registers Vx 15 }
  else { s with counter := (s.counter + 65536 - 2) % 65536 }

/-- Handler `OP_Fx15` (LD DT, Vx). -/
def Chip8.OP_Fx15 (s : Chip8) : Chip8 :=
  let Vx := (s.opcode &&& 0x0F00) >>> 8
  { s with delayTimer := s.registers Vx }

/-- Handler `OP_Fx18` (LD ST, Vx). -/
def Chip8.OP_Fx18 (s : Chip8) : Chip8 :=
  let Vx := (s.opcode &&& 0x0F00) >>> 8
  { s with soundTimer := s.registers Vx }

/-- Handler `OP_Fx1E` (ADD I, Vx): `index += registers[Vx]` on a `uint16_t`. -/
def Chip8.OP_Fx1E (s : Chip8) : Chip8 :=
  let Vx := (s.opcode &&& 0x0F00) >>> 8
  { s with index := (s.index + s.registers Vx) % 65536 }

/-- Handler `OP_Fx29` (LD F, Vx). -/
def Chip8.OP_Fx29 (s : Chip8) : Chip8 :=
  let Vx := (s.opcode &&& 0x0F00) >>> 8
  { s with index := (0x50 + 5 * s.registers Vx) % 65536 }

/-- Handler `OP_Fx33` (LD B, Vx): writes `memory[index + 2]`, `memory[index + 1]`,
`memory[index]` in this order, dividing the `uint8_t` copy `bcd` by ten in between. -/
def Chip8.OP_Fx33 (s : Chip8) : Except Fault Chip8 :=
  let Vx := (s.opcode &&& 0x0F00) >>> 8
  let bcd := s.registers Vx % 256
  if s.index + 2 < MEMORY_SIZE then
    let s1 := { s with memory := Function.update s.memory (s.index + 2) (bcd % 10) }
    let bcd1 := bcd / 10
    if s1.index + 1 < MEMORY_SIZE then
      let s2 := { s1 with memory := Function.update s1.memory (s1.index + 1) (bcd1 % 10) }
      let bcd2 := bcd1 / 10
      if s2.index < MEMORY_SIZE then
        .ok { s2 with memory := Function.update s2.memory s2.index bcd2 }
      else .error .memoryOutOfBounds
    else .error .memoryOutOfBounds
  else .error .memoryOutOfBounds

/-- Handler `OP_Fx55` (LD [I], Vx): `for (uint8_t i = 0; i <= Vx; ++i)`, that is `Vx + 1`
iterations since `Vx ≤ 15`. -/
def Chip8.OP_Fx55 (s : Chip8) : Except Fault Chip8 :=
  let Vx := (s.opcode &&& 0x0F00) >>> 8
  forLoop (fun i t =>
    if t.index + i < MEMORY_SIZE then
      .ok { t with memory := Function.update t.memory (t.index + i) (t.registers i) }
    else .error .memoryOutOfBounds) (Vx + 1) s

/-- Handler `OP_Fx65` (LD Vx, [I]): `for (uint8_t i = 0; i <= Vx; ++i)`, that is `Vx + 1`
iterations since `Vx ≤ 15`. -/
def Chip8.OP_Fx65 (s : Chip8) : Except Fault Chip8 :=
  let Vx := (s.opcode &&& 0x0F00) >>> 8
  forLoop (fun i t =>
    if t.index + i < MEMORY_SIZE then
      .ok { t with registers := Function.update t.registers i (t.memory (t.index + i)) }
    else .error .memoryOutOfBounds) (Vx + 1) s

/-! ## Dispatch and the cycle -/

/-- Calling through a pointer found in one of the four secondary tables.  The constructor
stores only instruction handlers there, so the four dispatchers are not reached from here
(`secondary_tables_hold_handlers` below). -/
def Chip8.callHandler (f : Chip8Func) (s : Chip8) : Except Fault Chip8 :=
  match f with
  | .Table0 | .Table8 | .TableE | .TableF => .error .nestedDispatch
  | .OP_NULL => .ok s.OP_NULL
  | .OP_00E0 => .ok s.OP_00E0
  | .OP_00EE => s.OP_00EE
  | .OP_1nnn => .ok s.OP_1nnn
  | .OP_2nnn => s.OP_2nnn
  | .OP_3xkk => .ok s.OP_3xkk
  | .OP_4xkk => .ok s.OP_4xkk
  | .OP_5xy0 => .ok s.OP_5xy0
  | .OP_6xkk => .ok s.OP_6xkk
  | .OP_7xkk => .ok s.OP_7xkk
  | .OP_8xy0 => .ok s.OP_8xy0
  | .OP_8xy1 => .ok s.OP_8xy1
  | .OP_8xy2 => .ok s.OP_8xy2
  | .OP_8xy3 => .ok s.OP_8xy3
  | .OP_8xy4 => .ok s.OP_8xy4
  | .OP_8xy5 => .ok s.OP_8xy5
  | .OP_8xy6 => .ok s.OP_8xy6
  | .OP_8xy7 => .ok s.OP_8xy7
  | .OP_8xyE => .ok s.OP_8xyE
  | .OP_9xy0 => .ok s.OP_9xy0
  | .OP_Annn => .ok s.OP_Annn
  | .OP_Bnnn => .ok s.OP_Bnnn
  | .OP_Cxkk => .ok s.OP_Cxkk
  | .OP_Dxyn => s.OP_Dxyn
  | .OP_Ex9E => s.OP_Ex9E
  | .OP_ExA1 => s.OP_ExA1
  | .OP_Fx07 => .ok s.OP_Fx07
  | .OP_Fx0A => .ok s.OP_Fx0A
  | .OP_Fx15 => .ok s.OP_Fx15
  | .OP_Fx18 => .ok s.OP_Fx18
  | .OP_Fx1E => .ok s.OP_Fx1E
  | .OP_Fx29 => .ok s.OP_Fx29
  | .OP_Fx33 => s.OP_Fx33
  | .OP_Fx55 => s.OP_Fx55
  | .OP_Fx65 => s.OP_Fx65

/-- Dispatcher `Table0`: `(this->*(table0[opcode & 0x000Fu]))()`. -/
def Chip8.Table0 (s : Chip8) : Except Fault Chip8 :=
  match fetchHandler table0 (0xE + 1) (s.opcode &&& 0x000F) with
  | .ok f => s.callHandler f
  | .error e => .error e

/-- Dispatcher `Table8`: `(this->*(table8[opcode & 0x000Fu]))()`. -/
def Chip8.Table8 (s : Chip8) : Except Fault Chip8 :=
  match fetchHandler table8 (0xE + 1) (s.opcode &&& 0x000F) with
  | .ok f => s.callHandler f
  | .error e => .error e

/-- Dispatcher `TableE`: `(this->*(tableE[opcode & 0x000Fu]))()`. -/
def Chip8.TableE (s : Chip8) : Except Fault Chip8 :=
  match fetchHandler tableE (0xE + 1) (s.opcode &&& 0x000F) with
  | .ok f => s.callHandler f
  | .error e => .error e

/-- Dispatcher `TableF`: `(this->*(tableF[opcode & 0x00FFu]))()`. -/
def Chip8.TableF (s : Chip8) : Except Fault Chip8 :=
  match fetchHandler tableF (0x65 + 1) (s.opcode &&& 0x00FF) with
  | .ok f => s.callHandler f
  | .error e => .error e

/-- Calling through a pointer found in the primary table. -/
def Chip8.call (f : Chip8Func) (s : Chip8) : Except Fault Chip8 :=
  match f with
  | .Table0 => s.Table0
  | .Table8 => s.Table8
  | .TableE => s.TableE
  | .TableF => s.TableF
  | g => s.callHandler g

/-- The timer part of `Cycle`: each timer is decremented when it is positive. -/
def Chip8.tick (s : Chip8) : Chip8 :=
  let s1 := if s.delayTimer > 0 then { s with delayTimer := s.delayTimer - 1 } else s
  if s1.soundTimer > 0 then { s1 with soundTimer := s1.soundTimer - 1 } else s1

/-- One call of `Cycle`: fetch `memory[counter]` and `memory[counter + 1]` into the
`uint16_t` opcode, `counter += 2`, call through `table[(opcode & 0xF000u) >> 12u]`, then the
timers. -/
def Chip8.Cycle (s : Chip8) : Except Fault Chip8 :=
  if s.counter + 1 < MEMORY_SIZE then
    let s1 :=
      { s with opcode := ((s.memory s.counter <<< 8) ||| s.memory (s.counter + 1)) % 65536 }
    let s2 := { s1 with counter := (s1.counter + 2) % 65536 }
    match fetchHandler table (0xF + 1) ((s2.opcode &&& 0xF000) >>> 12) with
    | .ok f =>
      match s2.call f with
      | .ok s3 => .ok s3.tick
      | .error e => .error e
    | .error e => .error e
  else .error .memoryOutOfBounds

/-- The state after `n` consecutive calls of `Cycle`, the keypad left alone in between. -/
def Chip8.cycles : Nat → Chip8 → Except Fault Chip8
  | 0, s => .ok s
  | n + 1, s =>
    match s.Cycle with
    | .ok t => Chip8.cycles n t
    | .error e => .error e

/-! ## Construction and image loading -/

/-- The constructor `Chip8::Chip8`: every member with a `{}` initialiser is zero, the
counter is `START_ADDRESS`, and the loop copies `fontset` to `FONTSET_START_ADDRESS`.
`opcode` has no initialiser, so its first value is a parameter, like the generator.
(Named `create` because a member `Chip8.Chip8` would shadow the structure.) -/
def Chip8.create (rng : Nat → Nat) (opcode0 : Nat) : Chip8 :=
  let s0 : Chip8 :=
    { registers := fun _ => 0, memory := fun _ => 0, index := 0, counter := 0,
      stack := fun _ => 0, sp := 0, delayTimer := 0, soundTimer := 0,
      keypad := fun _ => 0, display := fun _ => 0, opcode := opcode0, randGen := rng }
  let s1 := { s0 with counter := START_ADDRESS }
  forLoopTotal (fun i t =>
    { t with memory := Function.update t.memory (FONTSET_START_ADDRESS + i) (fontset.getD i 0) })
    FONTSET_SIZE s1

/-- The function `LoadROM`, given what the file holds (`none` when it cannot be opened):
byte `i` of the file is stored at `memory[START_ADDRESS + i]`. -/
def Chip8.LoadROM (file : Option (List Nat)) (s : Chip8) : Except Fault Chip8 :=
  match file with
  | none => .ok s
  | some buffer =>
    forLoop (fun i t =>
      if START_ADDRESS + i < MEMORY_SIZE then
        .ok { t with memory := Function.update t.memory (START_ADDRESS + i) (buffer.getD i 0 % 256) }
      else .error .memoryOutOfBounds) buffer.length s

/-! ## States used in examples -/

/-- A state for examples: counter at `START_ADDRESS`, the given opcode latched, the given
register file, everything else zero. -/
def Chip8.sample (opcode : Nat) (registers : Nat → Nat) : Chip8 :=
  { registers := registers, memory := fun _ => 0, index := 0, counter := START_ADDRESS,
    stack := fun _ => 0, sp := 0, delayTimer := 0, soundTimer := 0,
    keypad := fun _ => 0, display := fun _ => 0, opcode := opcode, randGen := fun _ => 0 }

/-- A state for examples: counter at `START_ADDRESS`, the bytes of `image` in memory from
`START_ADDRESS` on, the given register file and keypad, everything else zero. -/
def Chip8.sampleImage (image : List Nat) (registers keypad : Nat → Nat) : Chip8 :=
  { registers := registers,
    memory := fun a => if START_ADDRESS ≤ a then image.getD (a - START_ADDRESS) 0 else 0,
    index := 0, counter := START_ADDRESS, stack := fun _ => 0, sp := 0, delayTimer := 0,
    soundTimer := 0, keypad := keypad, display := fun _ => 0, opcode := 0,
    randGen := fun _ => 0 }

/-- A state for examples: opcode `D011` latched, index 0, the one-row sprite `0xFF` at
address 0, registers zero, frame buffer all off. -/
def Chip8.sampleSprite : Chip8 :=
  { Chip8.sample 0xD011 (fun _ => 0) with memory := fun a => if a = 0 then 0xFF else 0 }

/-- A state for examples: the given opcode latched, the given register file, index 0 and
the bytes of `sprite` in memory from address 0 on, frame buffer all off. -/
def Chip8.sampleDraw (opcode : Nat) (registers : Nat → Nat) (sprite : List Nat) : Chip8 :=
  { Chip8.sample opcode registers with memory := fun a => sprite.getD a 0 }

/-- The state in which `Cycle` calls the handler: `op` latched as the current opcode and
the counter advanced by 2. -/
def Chip8.latched (s : Chip8) (op : Nat) : Chip8 :=
  { s with opcode := op, counter := (s.counter + 2) % 65536 }

/-! ## Specification-side definitions -/

/-- The skip instructions as the specification lists them, decoded arithmetically from the
16-bit instruction `op`: `3xkk`, `4xkk`, `5xy0`, `9xy0`, and `Ex9E` / `ExA1` with
`register[x]` in 0..15.  The result is `some b` for a skip instruction whose condition has
the truth value `b`, and `none` for every other instruction. -/
def skipCondition (s : Chip8) (op : Nat) : Option Bool :=
  let x := op / 256 % 16
  let y := op / 16 % 16
  let kk := op % 256
  if op / 4096 = 0x3 then some (decide (s.registers x = kk))
  else if op / 4096 = 0x4 then some (decide (s.registers x ≠ kk))
  else if op / 4096 = 0x5 ∧ op % 16 = 0 then some (decide (s.registers x = s.registers y))
  else if op / 4096 = 0x9 ∧ op % 16 = 0 then some (decide (s.registers x ≠ s.registers y))
  else if op / 4096 = 0xE ∧ kk = 0x9E ∧ s.registers x < 16 then
    some (decide (s.keypad (s.registers x) ≠ 0))
  else if op / 4096 = 0xE ∧ kk = 0xA1 ∧ s.registers x < 16 then
    some (decide (s.keypad (s.registers x) = 0))
  else none

/-- Cell `p` of the frame buffer, at column `p % 64` of row `p / 64`, lies under a set bit
of the sprite whose `rows` row bytes start at `memory[index]` and whose top-left corner is
at column `xPos` of row `yPos`: bit `7 - c` of row byte `r` belongs to column `xPos + c` of
row `yPos + r`. -/
def underSprite (memory : Nat → Nat) (index xPos yPos rows p : Nat) : Bool :=
  decide (yPos ≤ p / 64 ∧ p / 64 < yPos + rows ∧ xPos ≤ p % 64 ∧ p % 64 < xPos + 8 ∧
    (memory (index + (p / 64 - yPos))).testBit (7 - (p % 64 - xPos)) = true)

/-- A frame-buffer cell toggled between off (0) and on (0xFFFFFFFF). -/
def toggled (v : Nat) : Nat := if v = 0 then 0xFFFFFFFF else 0

/-- The instruction handler that `Cycle` ends up calling for the opcode `op`: the entry of
the primary table, or, when that entry is one of the four dispatchers, the entry of its
secondary table. -/
def selectHandler (op : Nat) : Except Fault Chip8Func :=
  match fetchHandler table (0xF + 1) ((op &&& 0xF000) >>> 12) with
  | .ok .Table0 => fetchHandler table0 (0xE + 1) (op &&& 0x000F)
  | .ok .Table8 => fetchHandler table8 (0xE + 1) (op &&& 0x000F)
  | .ok .TableE => fetchHandler tableE (0xE + 1) (op &&& 0x000F)
  | .ok .TableF => fetchHandler tableF (0x65 + 1) (op &&& 0x00FF)
  | .ok f => .ok f
  | .error e => .error e

/-- The timer tick of the specification: `v - 1` when `v > 0`, and 0 when `v = 0`. -/
def tickValue (v : Nat) : Nat := if v > 0 then v - 1 else 0

/-- The memory operand of the instruction `op` lies inside memory: the `n` row bytes of
`Dxyn` end at or below 4096, the three bytes of `Fx33` and the `x + 1` bytes of `Fx55` and
`Fx65` lie below 4096.  Every other instruction has no memory operand. -/
def memoryOperandsFit (s : Chip8) (op : Nat) : Prop :=
  (op / 4096 = 0xD → s.index + op % 16 ≤ 4096) ∧
  (op / 4096 = 0xF → op % 256 = 0x33 → s.index + 2 < 4096) ∧
  (op / 4096 = 0xF → op % 256 = 0x55 ∨ op % 256 = 0x65 → s.index + op / 256 % 16 < 4096)

/-! ## Operand fields of an opcode -/

theorem shiftRight_and (a b n : Nat) : (a &&& b) >>> n = (a >>> n) &&& (b >>> n) := by
  apply Nat.eq_of_testBit_eq
  intro i
  simp [Nat.testBit_shiftRight, Nat.testBit_and]

theorem field_top (op : Nat) : (op &&& 0xF000) >>> 12 = (op / 4096) % 16 := by
  rw [shiftRight_and]
  have h : (0xF000 >>> 12 : Nat) = 2 ^ 4 - 1 := by decide
  rw [h, Nat.and_pow_two_sub_one_eq_mod, Nat.shiftRight_eq_div_pow]

theorem field_x (op : Nat) : (op &&& 0x0F00) >>> 8 = (op / 256) % 16 := by
  rw [shiftRight_and]
  have h : (0x0F00 >>> 8 : Nat) = 2 ^ 4 - 1 := by decide
  rw [h, Nat.and_pow_two_sub_one_eq_mod, Nat.shiftRight_eq_div_pow]

theorem field_y (op : Nat) : (op &&& 0x00F0) >>> 4 = (op / 16) % 16 := by
  rw [shiftRight_and]
  have h : (0x00F0 >>> 4 : Nat) = 2 ^ 4 - 1 := by decide
  rw [h, Nat.and_pow_two_sub_one_eq_mod, Nat.shiftRight_eq_div_pow]

theorem field_n (op : Nat) : op &&& 0x000F = op % 16 :=
  Nat.and_pow_two_sub_one_eq_mod op 4

theorem field_kk (op : Nat) : op &&& 0x00FF = op % 256 :=
  Nat.and_pow_two_sub_one_eq_mod op 8

theorem field_nnn (op : Nat) : op &&& 0x0FFF = op % 4096 :=
  Nat.and_pow_two_sub_one_eq_mod op 12

/-- The fetched opcode is `hi * 256 + lo` when both memory cells hold bytes. -/
theorem fetch_eq (hi lo : Nat) (hhi : hi < 256) (hlo : lo < 256) :
    ((hi <<< 8) ||| lo) % 65536 = hi * 256 + lo := by
  have h : (2 : Nat) ^ 8 * hi + lo = 2 ^ 8 * hi ||| lo := Nat.mul_add_lt_is_or (by omega) hi
  rw [Nat.shiftLeft_eq, Nat.mul_comm hi, ← h]
  omega

/-! ## Arithmetic handlers -/

/-- The register file after `OP_8xy4` with destination `x ≠ 0xF`. -/
theorem OP_8xy4_registers (s : Chip8) (x y : Nat)
    (hx : (s.opcode &&& 0x0F00) >>> 8 = x) (hy : (s.opcode &&& 0x00F0) >>> 4 = y)
    (hx14 : x ≤ 14) (hy15 : y ≤ 15) (hregs : ∀ i < 16, s.registers i < 256) :
    s.OP_8xy4.registers x = (s.registers x + s.registers y) % 256 ∧
    s.OP_8xy4.registers 0xF = (if s.registers x + s.registers y > 255 then 1 else 0) ∧
    ∀ i, i ≠ x → i ≠ 0xF → s.OP_8xy4.registers i = s.registers i := by
  have hxr := hregs x (by omega)
  have hyr := hregs y (by omega)
  have hsum : (s.registers x + s.registers y) % 65536 = s.registers x + s.registers y := by
    omega
  have hxF : (15 : Nat) ≠ x := by omega
  simp only [Chip8.OP_8xy4, hx, hy, hsum, field_kk]
  refine ⟨?_, ?_, ?_⟩
  · simp
  · split <;> simp [Function.update_apply, hxF]
  · intro i hi hiF
    split <;> simp [Function.update_apply, hi, hiF]

/-- C2: `OP_8xy4` with destination `x` in 0..14 and source `y` in 0..15 leaves
`register[x] = (old register[x] + old register[y]) mod 256`, sets register 0xF to 1 when the
sum exceeds 255 and to 0 otherwise, and changes no other register. -/
theorem OP_8xy4_add (s : Chip8) (x y : Nat)
    (hx : (s.opcode &&& 0x0F00) >>> 8 = x) (hy : (s.opcode &&& 0x00F0) >>> 4 = y)
    (hx14 : x ≤ 14) (hy15 : y ≤ 15) (hregs : ∀ i < 16, s.registers i < 256) :
    s.OP_8xy4.registers x = (s.registers x + s.registers y) % 256 ∧
    s.OP_8xy4.registers 0xF = (if s.registers x + s.registers y > 255 then 1 else 0) ∧
    ∀ i, i ≠ x → i ≠ 0xF → s.OP_8xy4.registers i = s.registers i :=
  OP_8xy4_registers s x y hx hy hx14 hy15 hregs

/-- Witness for C2: `8124` with V1 = 200 and V2 = 100 gives V1 = 44 and VF = 1, V3 kept. -/
theorem OP_8xy4_add_witness :
    ((Chip8.sample 0x8124 (fun i => if i = 1 then 200 else if i = 2 then 100 else 7)).opcode
        &&& 0x0F00) >>> 8 = 1 ∧
    (Chip8.sample 0x8124
      (fun i => if i = 1 then 200 else if i = 2 then 100 else 7)).OP_8xy4.registers 1 = 44 ∧
    (Chip8.sample 0x8124
      (fun i => if i = 1 then 200 else if i = 2 then 100 else 7)).OP_8xy4.registers 0xF = 1 ∧
    (Chip8.sample 0x8124
      (fun i => if i = 1 then 200 else if i = 2 then 100 else 7)).OP_8xy4.registers 3 = 7 := by
  have h := OP_8xy4_add
    (Chip8.sample 0x8124 (fun i => if i = 1 then 200 else if i = 2 then 100 else 7))
    1 2 (by decide) (by decide) (by decide) (by decide) (by decide)
  exact ⟨by decide, h.1, h.2.1, h.2.2 3 (by decide) (by decide)⟩

/-- What `OP_8xy5` does: the destination is the wrapped difference; the flag is 1 exactly
when the subtrahend is nonzero and at most the minuend. -/
theorem OP_8xy5_behaviour (s : Chip8) (x y : Nat)
    (hx : (s.opcode &&& 0x0F00) >>> 8 = x) (hy : (s.opcode &&& 0x00F0) >>> 4 = y)
    (hx14 : x ≤ 14) (hy15 : y ≤ 15) (hregs : ∀ i < 16, s.registers i < 256) :
    s.OP_8xy5.registers x = (s.registers x + 256 - s.registers y) % 256 ∧
    s.OP_8xy5.registers 0xF =
      (if 0 < s.registers y ∧ s.registers y ≤ s.registers x then 1 else 0) := by
  have hxr := hregs x (by omega)
  have hyr := hregs y (by omega)
  have hxF : (15 : Nat) ≠ x := by omega
  have hy256 : s.registers y % 256 = s.registers y := by omega
  simp only [Chip8.OP_8xy5, hx, hy, hy256]
  refine ⟨?_, ?_⟩
  · simp
  · by_cases h : 0 < s.registers y ∧ s.registers y ≤ s.registers x
    · have h1 : (s.registers x + 256 - s.registers y) % 256 < s.registers x := by omega
      simp [Function.update_apply, hxF, h, h1]
    · have h1 : ¬ (s.registers x + 256 - s.registers y) % 256 < s.registers x := by omega
      simp [Function.update_apply, hxF, h, h1]

/-- C3: at `8015` with V0 = 5 and V1 = 0 the minuend is at least the subtrahend, the
destination is the difference 5, and `OP_8xy5` leaves register 0xF = 0. -/
theorem OP_8xy5_flag_zero_subtrahend :
    (Chip8.sample 0x8015 (fun i => if i = 0 then 5 else 0)).registers 0 ≥
      (Chip8.sample 0x8015 (fun i => if i = 0 then 5 else 0)).registers 1 ∧
    (Chip8.sample 0x8015 (fun i => if i = 0 then 5 else 0)).OP_8xy5.registers 0 = 5 ∧
    (Chip8.sample 0x8015 (fun i => if i = 0 then 5 else 0)).OP_8xy5.registers 0xF = 0 := by
  decide

/-- C4: at `8017` with V0 = 5 and V1 = 5 the minuend V1 is at least the subtrahend V0, and
`OP_8xy7` leaves register 0xF = 0. -/
theorem OP_8xy7_flag_equal_operands :
    (Chip8.sample 0x8017 (fun _ => 5)).registers 1 ≥
      (Chip8.sample 0x8017 (fun _ => 5)).registers 0 ∧
    (Chip8.sample 0x8017 (fun _ => 5)).OP_8xy7.registers 0xF = 0 := by
  decide

/-- What `OP_8xy7` does to the flag: register 0xF is 1 exactly when the minuend
`register[y]` is strictly greater than the subtrahend `register[x]`. -/
theorem OP_8xy7_flag_behaviour (s : Chip8) (x y : Nat)
    (hx : (s.opcode &&& 0x0F00) >>> 8 = x) (hy : (s.opcode &&& 0x00F0) >>> 4 = y)
    (hx14 : x ≤ 14) :
    s.OP_8xy7.registers 0xF = (if s.registers y > s.registers x then 1 else 0) := by
  have hxF : (15 : Nat) ≠ x := by omega
  simp only [Chip8.OP_8xy7, hx, hy]
  split <;> simp [Function.update_apply, hxF]

/-! ## The cycle -/

@[simp] theorem tick_registers (s : Chip8) : s.tick.registers = s.registers := by
  unfold Chip8.tick; dsimp only; split_ifs <;> rfl
@[simp] theorem tick_memory (s : Chip8) : s.tick.memory = s.memory := by
  unfold Chip8.tick; dsimp only; split_ifs <;> rfl
@[simp] theorem tick_index (s : Chip8) : s.tick.index = s.index := by
  unfold Chip8.tick; dsimp only; split_ifs <;> rfl
@[simp] theorem tick_counter (s : Chip8) : s.tick.counter = s.counter := by
  unfold Chip8.tick; dsimp only; split_ifs <;> rfl
@[simp] theorem tick_stack (s : Chip8) : s.tick.stack = s.stack := by
  unfold Chip8.tick; dsimp only; split_ifs <;> rfl
@[simp] theorem tick_sp (s : Chip8) : s.tick.sp = s.sp := by
  unfold Chip8.tick; dsimp only; split_ifs <;> rfl
@[simp] theorem tick_keypad (s : Chip8) : s.tick.keypad = s.keypad := by
  unfold Chip8.tick; dsimp only; split_ifs <;> rfl
@[simp] theorem tick_display (s : Chip8) : s.tick.display = s.display := by
  unfold Chip8.tick; dsimp only; split_ifs <;> rfl
@[simp] theorem tick_opcode (s : Chip8) : s.tick.opcode = s.opcode := by
  unfold Chip8.tick; dsimp only; split_ifs <;> rfl

@[simp] theorem latched_registers (s : Chip8) (op : Nat) :
    (s.latched op).registers = s.registers := rfl
@[simp] theorem latched_memory (s : Chip8) (op : Nat) : (s.latched op).memory = s.memory := rfl
@[simp] theorem latched_index (s : Chip8) (op : Nat) : (s.latched op).index = s.index := rfl
@[simp] theorem latched_counter (s : Chip8) (op : Nat) :
    (s.latched op).counter = (s.counter + 2) % 65536 := rfl
@[simp] theorem latched_stack (s : Chip8) (op : Nat) : (s.latched op).stack = s.stack := rfl
@[simp] theorem latched_sp (s : Chip8) (op : Nat) : (s.latched op).sp = s.sp := rfl
@[simp] theorem latched_keypad (s : Chip8) (op : Nat) : (s.latched op).keypad = s.keypad := rfl
@[simp] theorem latched_display (s : Chip8) (op : Nat) :
    (s.latched op).display = s.display := rfl
@[simp] theorem latched_opcode (s : Chip8) (op : Nat) : (s.latched op).opcode = op := rfl
@[simp] theorem latched_delayTimer (s : Chip8) (op : Nat) :
    (s.latched op).delayTimer = s.delayTimer := rfl
@[simp] theorem latched_soundTimer (s : Chip8) (op : Nat) :
    (s.latched op).soundTimer = s.soundTimer := rfl

/-- Fetch and primary dispatch: when the two cells at the counter hold the bytes `hi` and
`lo` and `table[hi / 16]` holds `f`, a cycle latches `hi * 256 + lo`, advances the counter
by 2, calls `f` and ticks the timers. -/
theorem Cycle_fetch (s : Chip8) (hi lo : Nat) (f : Chip8Func)
    (hc : s.counter + 1 < 4096) (hhi : s.memory s.counter = hi)
    (hlo : s.memory (s.counter + 1) = lo) (hhi256 : hi < 256) (hlo256 : lo < 256)
    (hf : table (hi / 16) = some f) :
    s.Cycle =
      match (s.latched (hi * 256 + lo)).call f with
      | .ok s3 => .ok s3.tick
      | .error e => .error e := by
  have htop : (hi * 256 + lo) / 4096 % 16 = hi / 16 := by omega
  have hlt : hi / 16 < 16 := by omega
  simp only [Chip8.Cycle, hc, if_true, hhi, hlo, fetch_eq hi lo hhi256 hlo256, field_top, htop,
    fetchHandler, hf, Chip8.latched]
  simp [hlt]

/-! ## Construction and loading -/

/-- The font loop after `n ≤ 80` iterations has written `fontset[0..n)` and nothing else. -/
theorem fontLoop_eq (s : Chip8) (n : Nat) :
    forLoopTotal (fun i (t : Chip8) =>
      { t with memory := Function.update t.memory (FONTSET_START_ADDRESS + i) (fontset.getD i 0) })
      n s =
    { s with memory := fun a =>
        if 0x50 ≤ a ∧ a < 0x50 + n then fontset.getD (a - 0x50) 0 else s.memory a } := by
  induction n with
  | zero =>
    have hm : (fun a => if 0x50 ≤ a ∧ a < 0x50 + 0 then fontset.getD (a - 0x50) 0
        else s.memory a) = s.memory := by
      funext a
      have h : ¬ (0x50 ≤ a ∧ a < 0x50 + 0) := by omega
      simp only [h, if_false]
    simp only [forLoopTotal, hm]
  | succ n ih =>
    simp only [forLoopTotal, ih]
    congr 1
    funext a
    by_cases h : a = 0x50 + n
    · subst h
      simp
    · rw [Function.update_noteq h]
      by_cases h1 : 0x50 ≤ a ∧ a < 0x50 + n
      · have h2 : 0x50 ≤ a ∧ a < 0x50 + (n + 1) := by omega
        simp only [h1, h2, and_self, if_true]
      · have h2 : ¬ (0x50 ≤ a ∧ a < 0x50 + (n + 1)) := by omega
        simp only [h1, h2, if_false]

/-- The freshly constructed machine. -/
theorem create_eq (rng : Nat → Nat) (opcode0 : Nat) :
    Chip8.create rng opcode0 =
    { registers := fun _ => 0,
      memory := fun a => if 0x50 ≤ a ∧ a < 0x50 + 80 then fontset.getD (a - 0x50) 0 else 0,
      index := 0, counter := 0x200, stack := fun _ => 0, sp := 0, delayTimer := 0,
      soundTimer := 0, keypad := fun _ => 0, display := fun _ => 0, opcode := opcode0,
      randGen := rng } := by
  unfold Chip8.create
  simp only [fontLoop_eq]

/-- Loading an image that fits below address 4096 succeeds and writes exactly its bytes. -/
theorem LoadROM_loop_eq (buffer : List Nat) (s : Chip8) (n : Nat) (hn : 0x200 + n ≤ 4096) :
    forLoop (fun i (t : Chip8) =>
      if START_ADDRESS + i < MEMORY_SIZE then
        Except.ok { t with
          memory := Function.update t.memory (START_ADDRESS + i) (buffer.getD i 0 % 256) }
      else Except.error Fault.memoryOutOfBounds) n s =
    .ok { s with memory := fun a =>
        if 0x200 ≤ a ∧ a < 0x200 + n then buffer.getD (a - 0x200) 0 % 256 else s.memory a } := by
  induction n with
  | zero =>
    have hm : (fun a => if 0x200 ≤ a ∧ a < 0x200 + 0 then buffer.getD (a - 0x200) 0 % 256
        else s.memory a) = s.memory := by
      funext a
      have h : ¬ (0x200 ≤ a ∧ a < 0x200 + 0) := by omega
      simp only [h, if_false]
    simp only [forLoop, hm]
  | succ n ih =>
    have hlt : START_ADDRESS + n < MEMORY_SIZE := by
      show 0x200 + n < 4096
      omega
    simp only [forLoop, ih (by omega), hlt, if_true]
    congr 2
    funext a
    by_cases h : a = 0x200 + n
    · subst h
      simp
    · rw [Function.update_noteq h]
      by_cases h1 : 0x200 ≤ a ∧ a < 0x200 + n
      · have h2 : 0x200 ≤ a ∧ a < 0x200 + (n + 1) := by omega
        simp only [h1, h2, and_self, if_true]
      · have h2 : ¬ (0x200 ≤ a ∧ a < 0x200 + (n + 1)) := by omega
        simp only [h1, h2, if_false]

theorem LoadROM_eq (buffer : List Nat) (s : Chip8) (hn : 0x200 + buffer.length ≤ 4096) :
    s.LoadROM (some buffer) =
    .ok { s with memory := fun a =>
        if 0x200 ≤ a ∧ a < 0x200 + buffer.length then buffer.getD (a - 0x200) 0 % 256
        else s.memory a } := by
  unfold Chip8.LoadROM
  exact LoadROM_loop_eq buffer s buffer.length hn

/-! ## Single cycles -/

theorem table_6 : table 6 = some Chip8Func.OP_6xkk := by decide
theorem table_8 : table 8 = some Chip8Func.Table8 := by decide
theorem table8_4 : table8 4 = some Chip8Func.OP_8xy4 := by decide

/-- One cycle at `6xkk`. -/
theorem Cycle_6xkk (s : Chip8) (x kk : Nat) (hc : s.counter + 1 < 4096)
    (h1 : s.memory s.counter = 0x60 + x) (h2 : s.memory (s.counter + 1) = kk)
    (hx : x < 16) (hkk : kk < 256) :
    ∃ t, s.Cycle = .ok t ∧ t.counter = s.counter + 2 ∧ t.memory = s.memory ∧
      t.registers = Function.update s.registers x kk := by
  have hf : table ((0x60 + x) / 16) = some Chip8Func.OP_6xkk := by
    have h : (0x60 + x) / 16 = 6 := by omega
    rw [h]; exact table_6
  have hfx : ((0x60 + x) * 256 + kk) / 256 % 16 = x := by omega
  have hfk : ((0x60 + x) * 256 + kk) % 256 = kk := by omega
  have hcnt : (s.counter + 2) % 65536 = s.counter + 2 := by omega
  rw [Cycle_fetch s (0x60 + x) kk _ hc h1 h2 (by omega) hkk hf]
  refine ⟨_, rfl, ?_, ?_, ?_⟩
  · simp [Chip8.OP_6xkk, hcnt]
  · simp [Chip8.OP_6xkk]
  · simp [Chip8.OP_6xkk, field_x, field_kk, hfx, hfk]

/-- One cycle at `8xy4` with `x ≠ 0xF`. -/
theorem Cycle_8xy4 (s : Chip8) (x y : Nat) (hc : s.counter + 1 < 4096)
    (h1 : s.memory s.counter = 0x80 + x) (h2 : s.memory (s.counter + 1) = y * 16 + 4)
    (hx : x ≤ 14) (hy : y < 16) (hregs : ∀ i < 16, s.registers i < 256) :
    ∃ t, s.Cycle = .ok t ∧ t.counter = s.counter + 2 ∧ t.memory = s.memory ∧
      t.registers x = (s.registers x + s.registers y) % 256 ∧
      t.registers 0xF = (if s.registers x + s.registers y > 255 then 1 else 0) ∧
      ∀ i, i ≠ x → i ≠ 0xF → t.registers i = s.registers i := by
  have hf : table ((0x80 + x) / 16) = some Chip8Func.Table8 := by
    have h : (0x80 + x) / 16 = 8 := by omega
    rw [h]; exact table_8
  have hfx : ((0x80 + x) * 256 + (y * 16 + 4)) / 256 % 16 = x := by omega
  have hfy : ((0x80 + x) * 256 + (y * 16 + 4)) / 16 % 16 = y := by omega
  have hfn : ((0x80 + x) * 256 + (y * 16 + 4)) % 16 = 4 := by omega
  have hcnt : (s.counter + 2) % 65536 = s.counter + 2 := by omega
  rw [Cycle_fetch s (0x80 + x) (y * 16 + 4) _ hc h1 h2 (by omega) (by omega) hf]
  have hcall : (s.latched ((0x80 + x) * 256 + (y * 16 + 4))).call Chip8Func.Table8 =
      .ok (s.latched ((0x80 + x) * 256 + (y * 16 + 4))).OP_8xy4 := by
    simp [Chip8.call, Chip8.Table8, fetchHandler, field_n, hfn, table8_4, Chip8.callHandler]
  rw [hcall]
  have h := OP_8xy4_registers (s.latched ((0x80 + x) * 256 + (y * 16 + 4))) x y
    (by simp [field_x, hfx]) (by simp [field_y, hfy]) hx (by omega) hregs
  refine ⟨_, rfl, ?_, ?_, ?_⟩
  · simp [Chip8.OP_8xy4, hcnt]; split <;> simp [hcnt]
  · simp [Chip8.OP_8xy4]; split <;> rfl
  · simpa using h

/-- The freshly constructed machine with an image loaded. -/
theorem fresh_loaded (buffer : List Nat) (rng : Nat → Nat) (opcode0 : Nat)
    (hn : 0x200 + buffer.length ≤ 4096) :
    ∃ s0, (Chip8.create rng opcode0).LoadROM (some buffer) = .ok s0 ∧
      s0.counter = 0x200 ∧ (∀ i, s0.registers i = 0) ∧ s0.sp = 0 ∧ s0.index = 0 ∧
      (∀ i < buffer.length, s0.memory (0x200 + i) = buffer.getD i 0 % 256) := by
  rw [LoadROM_eq buffer _ hn, create_eq]
  refine ⟨_, rfl, rfl, fun _ => rfl, rfl, rfl, ?_⟩
  intro i hi
  have h : 0x200 ≤ 0x200 + i ∧ 0x200 + i < 0x200 + buffer.length := by omega
  simp only [h, and_self, if_true, Nat.add_sub_cancel_left]

/-- C1: on the freshly constructed machine with the image `60 a 61 b 80 14` loaded, three
cycles leave register 0 = (a + b) mod 256, register 0xF = 1 when a + b > 255 and 0
otherwise, register 1 = b and the counter at 0x206. -/
theorem scenario_load_load_add (a b : Nat) (ha : a < 256) (hb : b < 256)
    (rng : Nat → Nat) (opcode0 : Nat) :
    ∃ s0 s3, (Chip8.create rng opcode0).LoadROM (some [0x60, a, 0x61, b, 0x80, 0x14]) = .ok s0 ∧
      s0.cycles 3 = .ok s3 ∧
      s3.registers 0 = (a + b) % 256 ∧
      s3.registers 0xF = (if a + b > 255 then 1 else 0) ∧
      s3.registers 1 = b ∧ s3.counter = 0x206 := by
  obtain ⟨s0, hs0, hcnt0, hreg0, -, -, hmem0⟩ :=
    fresh_loaded [0x60, a, 0x61, b, 0x80, 0x14] rng opcode0 (by simp)
  have m0 := hmem0 0 (by simp)
  have m1 := hmem0 1 (by simp)
  have m2 := hmem0 2 (by simp)
  have m3 := hmem0 3 (by simp)
  have m4 := hmem0 4 (by simp)
  have m5 := hmem0 5 (by simp)
  simp only [List.getD_cons_zero, List.getD_cons_succ, Nat.mod_eq_of_lt ha, Nat.mod_eq_of_lt hb,
    Nat.reduceMod, Nat.reduceAdd] at m0 m1 m2 m3 m4 m5
  obtain ⟨t1, hc1, hcnt1, hmem1, hreg1⟩ := Cycle_6xkk s0 0 a (by omega)
    (by rw [hcnt0]; exact m0) (by rw [hcnt0]; exact m1) (by omega) ha
  obtain ⟨t2, hc2, hcnt2, hmem2, hreg2⟩ := Cycle_6xkk t1 1 b (by omega)
    (by rw [hcnt1, hcnt0, hmem1]; exact m2) (by rw [hcnt1, hcnt0, hmem1]; exact m3) (by omega) hb
  have hr0 : t2.registers 0 = a := by simp [hreg2, hreg1]
  have hr1 : t2.registers 1 = b := by simp [hreg2]
  obtain ⟨t3, hc3, hcnt3, -, hx3, hf3, ho3⟩ := Cycle_8xy4 t2 0 1 (by omega)
    (by rw [hcnt2, hcnt1, hcnt0, hmem2, hmem1]; exact m4)
    (by rw [hcnt2, hcnt1, hcnt0, hmem2, hmem1]; exact m5) (by omega) (by omega)
    (by
      intro i _
      rw [hreg2, hreg1]
      simp only [Function.update_apply]
      split
      · exact hb
      · split
        · exact ha
        · rw [hreg0]; omega)
  refine ⟨s0, t3, hs0, ?_, ?_, ?_, ?_, ?_⟩
  · simp [Chip8.cycles, hc1, hc2, hc3]
  · rw [hx3, hr0, hr1]
  · rw [hf3, hr0, hr1]
  · rw [ho3 1 (by omega) (by omega), hr1]
  · omega

/-- Witness for C1: a = 0x0A and b = 0x05 give register 0 = 15, flag 0, counter 0x206. -/
theorem scenario_load_load_add_witness :
    (0x0A < 256 ∧ 0x05 < 256) ∧
    ∃ s0 s3, (Chip8.create (fun _ => 0) 0).LoadROM
        (some [0x60, 0x0A, 0x61, 0x05, 0x80, 0x14]) = .ok s0 ∧
      s0.cycles 3 = .ok s3 ∧ s3.registers 0 = 15 ∧ s3.registers 0xF = 0 ∧
      s3.registers 1 = 5 ∧ s3.counter = 0x206 := by
  obtain ⟨s0, s3, h1, h2, h3, h4, h5, h6⟩ :=
    scenario_load_load_add 0x0A 0x05 (by decide) (by decide) (fun _ => 0) 0
  exact ⟨by decide, s0, s3, h1, h2, h3, h4, h5, h6⟩

/-! ## Skip instructions -/

/-- C5: when the counter `c` has `c + 1 < 4096` and the cells at `c`, `c + 1` hold a skip
instruction (`3xkk`, `4xkk`, `5xy0`, `9xy0`, `Ex9E` or `ExA1` with `register[x]` in 0..15),
one cycle leaves the counter at `(c + 4) mod 65536` when the condition holds and at
`(c + 2) mod 65536` when it does not; registers, index, memory, stack and frame buffer are
unchanged. -/
theorem Cycle_skip (s : Chip8) (b : Bool) (hc : s.counter + 1 < 4096)
    (hhi : s.memory s.counter < 256) (hlo : s.memory (s.counter + 1) < 256)
    (hskip : skipCondition s (s.memory s.counter * 256 + s.memory (s.counter + 1)) = some b) :
    ∃ t, s.Cycle = .ok t ∧
      t.counter = (s.counter + (if b then 4 else 2)) % 65536 ∧
      t.registers = s.registers ∧ t.index = s.index ∧ t.memory = s.memory ∧
      t.stack = s.stack ∧ t.display = s.display := by
  generalize hhi' : s.memory s.counter = hi at hhi hskip
  generalize hlo' : s.memory (s.counter + 1) = lo at hlo hskip
  have hcnt : (s.counter + 2) % 65536 = s.counter + 2 := by omega
  have hcnt4 : (s.counter + 2 + 2) % 65536 = s.counter + 4 := by omega
  have hcnt4' : (s.counter + 4) % 65536 = s.counter + 4 := by omega
  unfold skipCondition at hskip
  simp only at hskip
  split_ifs at hskip with h3 h4 h5 h9 hE9 hEA
  · have hf : table (hi / 16) = some Chip8Func.OP_3xkk := by
      have h : hi / 16 = 3 := by omega
      rw [h]; decide
    rw [Cycle_fetch s hi lo _ hc hhi' hlo' hhi hlo hf]
    simp only [Option.some.injEq] at hskip
    subst hskip
    by_cases hcond : s.registers ((hi * 256 + lo) / 256 % 16) = (hi * 256 + lo) % 256
    · refine ⟨_, rfl, ?_⟩
      simp [Chip8.call, Chip8.callHandler, Chip8.OP_3xkk, field_x, field_kk, hcond, hcnt, hcnt4,
        hcnt4']
    · refine ⟨_, rfl, ?_⟩
      simp [Chip8.call, Chip8.callHandler, Chip8.OP_3xkk, field_x, field_kk, hcond, hcnt, hcnt4,
        hcnt4']
  · have hf : table (hi / 16) = some Chip8Func.OP_4xkk := by
      have h : hi / 16 = 4 := by omega
      rw [h]; decide
    rw [Cycle_fetch s hi lo _ hc hhi' hlo' hhi hlo hf]
    simp only [Option.some.injEq] at hskip
    subst hskip
    by_cases hcond : s.registers ((hi * 256 + lo) / 256 % 16) = (hi * 256 + lo) % 256
    · refine ⟨_, rfl, ?_⟩
      simp [Chip8.call, Chip8.callHandler, Chip8.OP_4xkk, field_x, field_kk, hcond, hcnt]
    · refine ⟨_, rfl, ?_⟩
      simp [Chip8.call, Chip8.callHandler, Chip8.OP_4xkk, field_x, field_kk, hcond, hcnt, hcnt4,
        hcnt4']
  · have hf : table (hi / 16) = some Chip8Func.OP_5xy0 := by
      have h : hi / 16 = 5 := by omega
      rw [h]; decide
    rw [Cycle_fetch s hi lo _ hc hhi' hlo' hhi hlo hf]
    simp only [Option.some.injEq] at hskip
    subst hskip
    by_cases hcond : s.registers ((hi * 256 + lo) / 256 % 16) =
        s.registers ((hi * 256 + lo) / 16 % 16)
    · refine ⟨_, rfl, ?_⟩
      simp [Chip8.call, Chip8.callHandler, Chip8.OP_5xy0, field_x, field_y, hcond, hcnt, hcnt4,
        hcnt4']
    · refine ⟨_, rfl, ?_⟩
      simp [Chip8.call, Chip8.callHandler, Chip8.OP_5xy0, field_x, field_y, hcond, hcnt]
  · have hf : table (hi / 16) = some Chip8Func.OP_9xy0 := by
      have h : hi / 16 = 9 := by omega
      rw [h]; decide
    rw [Cycle_fetch s hi lo _ hc hhi' hlo' hhi hlo hf]
    simp only [Option.some.injEq] at hskip
    subst hskip
    by_cases hcond : s.registers ((hi * 256 + lo) / 256 % 16) =
        s.registers ((hi * 256 + lo) / 16 % 16)
    · refine ⟨_, rfl, ?_⟩
      simp [Chip8.call, Chip8.callHandler, Chip8.OP_9xy0, field_x, field_y, hcond, hcnt]
    · refine ⟨_, rfl, ?_⟩
      simp [Chip8.call, Chip8.callHandler, Chip8.OP_9xy0, field_x, field_y, hcond, hcnt, hcnt4,
        hcnt4']
  · have hf : table (hi / 16) = some Chip8Func.TableE := by
      have h : hi / 16 = 0xE := by omega
      rw [h]; decide
    have hn : (hi * 256 + lo) % 16 = 0xE := by omega
    have hsub : tableE 0xE = some Chip8Func.OP_Ex9E := by decide
    have hkey := hE9.2.2
    have hcall : (s.latched (hi * 256 + lo)).call Chip8Func.TableE =
        (s.latched (hi * 256 + lo)).OP_Ex9E := by
      simp [Chip8.call, Chip8.TableE, fetchHandler, field_n, hn, hsub, Chip8.callHandler]
    rw [Cycle_fetch s hi lo _ hc hhi' hlo' hhi hlo hf, hcall]
    simp only [Option.some.injEq] at hskip
    subst hskip
    simp only [Chip8.OP_Ex9E, field_x, latched_opcode, latched_registers, hkey, if_true,
      latched_keypad]
    by_cases hcond : s.keypad (s.registers ((hi * 256 + lo) / 256 % 16)) = 0
    · simp only [hcond, ne_eq, not_true_eq_false, if_false, if_true]
      refine ⟨_, rfl, ?_⟩
      simp [hcnt, hcnt4, hcnt4']
    · simp only [hcond, ne_eq, not_false_eq_true, if_false, if_true]
      refine ⟨_, rfl, ?_⟩
      simp [hcond, hcnt, hcnt4, hcnt4']

  · have hf : table (hi / 16) = some Chip8Func.TableE := by
      have h : hi / 16 = 0xE := by omega
      rw [h]; decide
    have hn : (hi * 256 + lo) % 16 = 0x1 := by omega
    have hsub : tableE 0x1 = some Chip8Func.OP_ExA1 := by decide
    have hkey := hEA.2.2
    have hcall : (s.latched (hi * 256 + lo)).call Chip8Func.TableE =
        (s.latched (hi * 256 + lo)).OP_ExA1 := by
      simp [Chip8.call, Chip8.TableE, fetchHandler, field_n, hn, hsub, Chip8.callHandler]
    rw [Cycle_fetch s hi lo _ hc hhi' hlo' hhi hlo hf, hcall]
    simp only [Option.some.injEq] at hskip
    subst hskip
    simp only [Chip8.OP_ExA1, field_x, latched_opcode, latched_registers, hkey, if_true,
      latched_keypad]
    by_cases hcond : s.keypad (s.registers ((hi * 256 + lo) / 256 % 16)) = 0
    · simp only [hcond, ne_eq, not_true_eq_false, if_false, if_true]
      refine ⟨_, rfl, ?_⟩
      simp [hcnt, hcnt4, hcnt4']
    · simp only [hcond, ne_eq, not_false_eq_true, if_false, if_true]
      refine ⟨_, rfl, ?_⟩
      simp [hcond, hcnt, hcnt4, hcnt4']

/-- Witness for C5: `3205` with V2 = 5 skips, so the counter goes from 0x200 to 0x204. -/
theorem Cycle_skip_witness :
    ((Chip8.sampleImage [0x32, 0x05] (fun _ => 5) (fun _ => 0)).counter + 1 < 4096 ∧
      skipCondition (Chip8.sampleImage [0x32, 0x05] (fun _ => 5) (fun _ => 0)) 0x3205 =
        some true) ∧
    ∃ t, (Chip8.sampleImage [0x32, 0x05] (fun _ => 5) (fun _ => 0)).Cycle = .ok t ∧
      t.counter = 0x204 ∧ t.registers = fun _ => 5 := by
  obtain ⟨t, h1, h2, h3, -⟩ :=
    Cycle_skip (Chip8.sampleImage [0x32, 0x05] (fun _ => 5) (fun _ => 0)) true
      (by decide) (by decide) (by decide) (by decide)
  exact ⟨⟨by decide, by decide⟩, t, h1, h2, h3⟩

/-! ## Call and return -/

/-- One cycle at `2nnn` with room on the stack. -/
theorem Cycle_2nnn (s : Chip8) (nnn : Nat) (hsp : s.sp < 16) (hc : s.counter + 1 < 4096)
    (hn : nnn < 4096)
    (h1 : s.memory s.counter = 0x20 + nnn / 256) (h2 : s.memory (s.counter + 1) = nnn % 256) :
    ∃ t, s.Cycle = .ok t ∧ t.counter = nnn ∧
      t.stack = Function.update s.stack s.sp (s.counter + 2) ∧ t.sp = s.sp + 1 ∧
      t.memory = s.memory := by
  have hf : table ((0x20 + nnn / 256) / 16) = some Chip8Func.OP_2nnn := by
    have h : (0x20 + nnn / 256) / 16 = 2 := by omega
    rw [h]; decide
  have hop : ((0x20 + nnn / 256) * 256 + nnn % 256) % 4096 = nnn := by omega
  have hcnt : (s.counter + 2) % 65536 = s.counter + 2 := by omega
  have hsp1 : (s.sp + 1) % 256 = s.sp + 1 := by omega
  have hcall : (s.latched ((0x20 + nnn / 256) * 256 + nnn % 256)).call Chip8Func.OP_2nnn =
      (s.latched ((0x20 + nnn / 256) * 256 + nnn % 256)).OP_2nnn := rfl
  rw [Cycle_fetch s _ _ _ hc h1 h2 (by omega) (by omega) hf, hcall]
  simp only [Chip8.OP_2nnn, latched_sp, hsp, if_true]
  refine ⟨_, rfl, ?_⟩
  simp [field_nnn, hop, hcnt, hsp1]

/-- One cycle at `00EE` with a nonempty stack. -/
theorem Cycle_00EE (s : Chip8) (hsp0 : 0 < s.sp) (hsp : s.sp ≤ 16) (hc : s.counter + 1 < 4096)
    (h1 : s.memory s.counter = 0x00) (h2 : s.memory (s.counter + 1) = 0xEE) :
    ∃ t, s.Cycle = .ok t ∧ t.counter = s.stack (s.sp - 1) ∧ t.stack = s.stack ∧
      t.sp = s.sp - 1 ∧ t.memory = s.memory := by
  have hf : table (0x00 / 16) = some Chip8Func.Table0 := by decide
  have hsub : table0 0xE = some Chip8Func.OP_00EE := by decide
  have hsp1 : (s.sp + 255) % 256 = s.sp - 1 := by omega
  have hlt : s.sp - 1 < 16 := by omega
  have hcall : (s.latched (0x00 * 256 + 0xEE)).call Chip8Func.Table0 =
      (s.latched (0x00 * 256 + 0xEE)).OP_00EE := by
    simp [Chip8.call, Chip8.Table0, fetchHandler, field_n, hsub, Chip8.callHandler]
  rw [Cycle_fetch s _ _ _ hc h1 h2 (by omega) (by omega) hf, hcall]
  simp only [Chip8.OP_00EE, latched_sp, hsp1, hlt, if_true]
  refine ⟨_, rfl, ?_⟩
  simp

/-- C6: with stack pointer `sp < 16`, counter `c` (`c + 1 < 4096`) at `2nnn` and `00EE`
stored at `nnn` (`nnn + 1 < 4096`), the first cycle leaves counter = nnn, stack[sp] = c + 2
and stack pointer sp + 1; the second leaves counter = c + 2 and stack pointer sp. -/
theorem call_then_return (s : Chip8) (nnn : Nat) (hsp : s.sp < 16)
    (hc : s.counter + 1 < 4096) (hn : nnn + 1 < 4096)
    (h1 : s.memory s.counter = 0x20 + nnn / 256) (h2 : s.memory (s.counter + 1) = nnn % 256)
    (h3 : s.memory nnn = 0x00) (h4 : s.memory (nnn + 1) = 0xEE) :
    ∃ t1 t2, s.Cycle = .ok t1 ∧ t1.Cycle = .ok t2 ∧ s.cycles 2 = .ok t2 ∧
      t1.counter = nnn ∧ t1.stack s.sp = s.counter + 2 ∧ t1.sp = s.sp + 1 ∧
      t2.counter = s.counter + 2 ∧ t2.sp = s.sp := by
  obtain ⟨t1, hs1, hcnt1, hstk1, hsp1, hmem1⟩ := Cycle_2nnn s nnn hsp hc (by omega) h1 h2
  obtain ⟨t2, hs2, hcnt2, -, hsp2, -⟩ := Cycle_00EE t1 (by omega) (by omega) (by omega)
    (by rw [hcnt1, hmem1]; exact h3) (by rw [hcnt1, hmem1]; exact h4)
  refine ⟨t1, t2, hs1, hs2, ?_, hcnt1, ?_, hsp1, ?_, ?_⟩
  · simp [Chip8.cycles, hs1, hs2]
  · simp [hstk1]
  · rw [hcnt2, hstk1, hsp1]; simp
  · omega

/-- Witness for C6: `2204` at 0x200 and `00EE` at 0x204 bring the counter back to 0x202. -/
theorem call_then_return_witness :
    ((Chip8.sampleImage [0x22, 0x04, 0, 0, 0x00, 0xEE] (fun _ => 0) (fun _ => 0)).sp < 16 ∧
      (Chip8.sampleImage [0x22, 0x04, 0, 0, 0x00, 0xEE] (fun _ => 0) (fun _ => 0)).memory 0x204
        = 0x00) ∧
    ∃ t1 t2,
      (Chip8.sampleImage [0x22, 0x04, 0, 0, 0x00, 0xEE] (fun _ => 0) (fun _ => 0)).Cycle
        = .ok t1 ∧ t1.Cycle = .ok t2 ∧ t1.counter = 0x204 ∧ t1.stack 0 = 0x202 ∧ t1.sp = 1 ∧
      t2.counter = 0x202 ∧ t2.sp = 0 := by
  obtain ⟨t1, t2, h1, h2, -, h4, h5, h6, h7, h8⟩ :=
    call_then_return (Chip8.sampleImage [0x22, 0x04, 0, 0, 0x00, 0xEE] (fun _ => 0) (fun _ => 0))
      0x204 (by decide) (by decide) (by decide) (by decide) (by decide) (by decide) (by decide)
  exact ⟨⟨by decide, by decide⟩, t1, t2, h1, h2, h4, h5, h6, h7, h8⟩

/-! ## Register store and load -/

/-- The store loop of `OP_Fx55` after `n` iterations that stay inside memory. -/
theorem Fx55_loop_eq (s : Chip8) (n : Nat) (hn : s.index + n ≤ 4096) :
    forLoop (fun i (t : Chip8) =>
      if t.index + i < MEMORY_SIZE then
        Except.ok { t with memory := Function.update t.memory (t.index + i) (t.registers i) }
      else Except.error Fault.memoryOutOfBounds) n s =
    .ok { s with memory := fun a =>
        if s.index ≤ a ∧ a < s.index + n then s.registers (a - s.index) else s.memory a } := by
  induction n with
  | zero =>
    have hm : (fun a => if s.index ≤ a ∧ a < s.index + 0 then s.registers (a - s.index)
        else s.memory a) = s.memory := by
      funext a
      have h : ¬ (s.index ≤ a ∧ a < s.index + 0) := by omega
      simp only [h, if_false]
    simp only [forLoop, hm]
  | succ n ih =>
    have hlt : s.index + n < MEMORY_SIZE := by
      show s.index + n < 4096
      omega
    simp only [forLoop, ih (by omega), hlt, if_true]
    congr 2
    funext a
    by_cases h : a = s.index + n
    · subst h
      simp
    · rw [Function.update_noteq h]
      by_cases h1 : s.index ≤ a ∧ a < s.index + n
      · have h2 : s.index ≤ a ∧ a < s.index + (n + 1) := by omega
        simp only [h1, h2, and_self, if_true]
      · have h2 : ¬ (s.index ≤ a ∧ a < s.index + (n + 1)) := by omega
        simp only [h1, h2, if_false]

/-- The load loop of `OP_Fx65` after `n` iterations that stay inside memory. -/
theorem Fx65_loop_eq (s : Chip8) (n : Nat) (hn : s.index + n ≤ 4096) :
    forLoop (fun i (t : Chip8) =>
      if t.index + i < MEMORY_SIZE then
        Except.ok { t with registers := Function.update t.registers i (t.memory (t.index + i)) }
      else Except.error Fault.memoryOutOfBounds) n s =
    .ok { s with registers := fun i =>
        if i < n then s.memory (s.index + i) else s.registers i } := by
  induction n with
  | zero =>
    simp only [forLoop, Nat.not_lt_zero, if_false]
  | succ n ih =>
    have hlt : s.index + n < MEMORY_SIZE := by
      show s.index + n < 4096
      omega
    simp only [forLoop, ih (by omega), hlt, if_true]
    congr 2
    funext i
    by_cases h : i = n
    · subst h
      simp
    · rw [Function.update_noteq h]
      by_cases h1 : i < n
      · have h2 : i < n + 1 := by omega
        simp only [h1, h2, if_true]
      · have h2 : ¬ i < n + 1 := by omega
        simp only [h1, h2, if_false]

/-- The handler `OP_Fx55` when registers 0..x fit below address 4096. -/
theorem OP_Fx55_eq (s : Chip8) (x : Nat) (hx : (s.opcode &&& 0x0F00) >>> 8 = x)
    (hb : s.index + x < 4096) :
    s.OP_Fx55 = .ok { s with
      memory := fun a =>
        if s.index ≤ a ∧ a < s.index + (x + 1) then s.registers (a - s.index)
        else s.memory a } := by
  unfold Chip8.OP_Fx55
  rw [hx]
  exact Fx55_loop_eq s (x + 1) (by omega)

/-- The handler `OP_Fx65` when the cells `index .. index + x` lie below address 4096. -/
theorem OP_Fx65_eq (s : Chip8) (x : Nat) (hx : (s.opcode &&& 0x0F00) >>> 8 = x)
    (hb : s.index + x < 4096) :
    s.OP_Fx65 = .ok { s with
      registers := fun i => if i < x + 1 then s.memory (s.index + i) else s.registers i } := by
  unfold Chip8.OP_Fx65
  rw [hx]
  exact Fx65_loop_eq s (x + 1) (by omega)

/-- C7: for `x` in 0..15 and `index + x < 4096`, `OP_Fx55` succeeds and keeps `index`; if
afterwards `OP_Fx65` with the same `x` runs in any state with the same `index` and the same
bytes at `index .. index + x` (whatever its registers), it succeeds, keeps `index`, makes
registers 0..x equal to their values at the time of the store, and leaves the registers
above `x` as they were just before the load. -/
theorem store_load_round_trip (s : Chip8) (x : Nat)
    (hx : (s.opcode &&& 0x0F00) >>> 8 = x) (hb : s.index + x < 4096) :
    ∃ t, s.OP_Fx55 = .ok t ∧ t.index = s.index ∧
      ∀ s2 : Chip8, (s2.opcode &&& 0x0F00) >>> 8 = x → s2.index = t.index →
        (∀ i, i ≤ x → s2.memory (t.index + i) = t.memory (t.index + i)) →
        ∃ u, s2.OP_Fx65 = .ok u ∧ u.index = s2.index ∧
          (∀ i, i ≤ x → u.registers i = s.registers i) ∧
          (∀ j, x < j → u.registers j = s2.registers j) := by
  refine ⟨_, OP_Fx55_eq s x hx hb, rfl, ?_⟩
  intro s2 hx2 hidx hmem
  simp only at hidx hmem
  refine ⟨_, OP_Fx65_eq s2 x hx2 (by omega), rfl, ?_, ?_⟩
  · intro i hi
    have h1 : i < x + 1 := by omega
    have h2 : s.index ≤ s.index + i ∧ s.index + i < s.index + (x + 1) := by omega
    simp only [h1, if_true, hidx, hmem i hi, h2, and_self, Nat.add_sub_cancel_left]
  · intro j hj
    have h1 : ¬ j < x + 1 := by omega
    simp only [h1, if_false]

/-- Witness for C7: `F255` stores V0..V2 = 11, 12, 13 at address 0; after the registers are
overwritten with 99, `F265` restores V0..V2 and leaves V3 = 99. -/
theorem store_load_round_trip_witness :
    (Chip8.sample 0xF255 (fun i => 11 + i)).index + 2 < 4096 ∧
    ∃ t u, (Chip8.sample 0xF255 (fun i => 11 + i)).OP_Fx55 = .ok t ∧
      Chip8.OP_Fx65 { t with registers := fun _ => 99, opcode := 0xF265 } = .ok u ∧
      u.registers 0 = 11 ∧ u.registers 1 = 12 ∧ u.registers 2 = 13 ∧ u.registers 3 = 99 := by
  obtain ⟨t, ht, -, hrt⟩ :=
    store_load_round_trip (Chip8.sample 0xF255 (fun i => 11 + i)) 2 (by decide) (by decide)
  obtain ⟨u, hu, -, hlow, hhigh⟩ :=
    hrt { t with registers := fun _ => 99, opcode := 0xF265 }
      (show (0xF265 &&& 0x0F00) >>> 8 = 2 by decide) rfl (fun _ _ => rfl)
  exact ⟨by decide, t, u, ht, hu, hlow 0 (by omega), hlow 1 (by omega), hlow 2 (by omega),
    hhigh 3 (by omega)⟩

/-! ## Wait for key -/

/-- The handler `OP_Fx0A` when no key is pressed: only the counter moves, back by 2. -/
theorem OP_Fx0A_idle (s : Chip8) (hkeys : ∀ k, k < 16 → s.keypad k = 0) :
    s.OP_Fx0A = { s with counter := (s.counter + 65536 - 2) % 65536 } := by
  have k0 := hkeys 0 (by omega)
  have k1 := hkeys 1 (by omega)
  have k2 := hkeys 2 (by omega)
  have k3 := hkeys 3 (by omega)
  have k4 := hkeys 4 (by omega)
  have k5 := hkeys 5 (by omega)
  have k6 := hkeys 6 (by omega)
  have k7 := hkeys 7 (by omega)
  have k8 := hkeys 8 (by omega)
  have k9 := hkeys 9 (by omega)
  have k10 := hkeys 10 (by omega)
  have k11 := hkeys 11 (by omega)
  have k12 := hkeys 12 (by omega)
  have k13 := hkeys 13 (by omega)
  have k14 := hkeys 14 (by omega)
  have k15 := hkeys 15 (by omega)
  simp only [Chip8.OP_Fx0A, k0, k1, k2, k3, k4, k5, k6, k7, k8, k9, k10, k11, k12, k13, k14, k15,
    ne_eq, not_true_eq_false, if_false]

/-- The handler `OP_Fx0A` when key `k` is pressed and no key below `k` is: the destination
receives `k` and nothing else changes. -/
theorem OP_Fx0A_first (s : Chip8) (k : Nat) (hk : k < 16) (hne : s.keypad k ≠ 0)
    (hlow : ∀ j, j < k → s.keypad j = 0) :
    s.OP_Fx0A =
      { s with registers := Function.update s.registers ((s.opcode &&& 0x0F00) >>> 8) k } := by
  interval_cases k <;> simp [Chip8.OP_Fx0A, hne, hlow]

/-- The handler `OP_Fx0A` when some key is pressed: the destination receives the smallest
pressed index and nothing else changes. -/
theorem OP_Fx0A_pressed (s : Chip8) (hpressed : ∃ k, k < 16 ∧ s.keypad k ≠ 0) :
    ∃ k, k < 16 ∧ s.keypad k ≠ 0 ∧ (∀ j, j < k → s.keypad j = 0) ∧
      s.OP_Fx0A =
        { s with registers := Function.update s.registers ((s.opcode &&& 0x0F00) >>> 8) k } := by
  have hspec := Nat.find_spec hpressed
  have hmin : ∀ j, j < Nat.find hpressed → s.keypad j = 0 := by
    intro j hj
    have h := Nat.find_min hpressed hj
    by_contra hne
    exact h ⟨by omega, hne⟩
  exact ⟨Nat.find hpressed, hspec.1, hspec.2, hmin,
    OP_Fx0A_first s _ hspec.1 hspec.2 hmin⟩

/-- Fetch and dispatch of `Fx0A`: the cycle runs `OP_Fx0A` on the latched state. -/
theorem Cycle_Fx0A (s : Chip8) (x : Nat) (hc : s.counter + 1 < 4096)
    (h1 : s.memory s.counter = 0xF0 + x) (h2 : s.memory (s.counter + 1) = 0x0A) (hx : x < 16) :
    s.Cycle = .ok (s.latched ((0xF0 + x) * 256 + 0x0A)).OP_Fx0A.tick ∧
    ((s.latched ((0xF0 + x) * 256 + 0x0A)).opcode &&& 0x0F00) >>> 8 = x := by
  have hf : table ((0xF0 + x) / 16) = some Chip8Func.TableF := by
    have h : (0xF0 + x) / 16 = 0xF := by omega
    rw [h]; decide
  have hsub : tableF 0x0A = some Chip8Func.OP_Fx0A := by decide
  have hlow : ((0xF0 + x) * 256 + 0x0A) % 256 = 0x0A := by omega
  have hfx : ((0xF0 + x) * 256 + 0x0A) / 256 % 16 = x := by omega
  have hcall : (s.latched ((0xF0 + x) * 256 + 0x0A)).call Chip8Func.TableF =
      .ok (s.latched ((0xF0 + x) * 256 + 0x0A)).OP_Fx0A := by
    simp [Chip8.call, Chip8.TableF, fetchHandler, field_kk, hlow, hsub, Chip8.callHandler]
  rw [Cycle_fetch s _ _ _ hc h1 h2 (by omega) (by omega) hf, hcall]
  exact ⟨rfl, by rw [latched_opcode, field_x, hfx]⟩

/-- One cycle at `Fx0A` with no key pressed. -/
theorem Cycle_Fx0A_idle (s : Chip8) (x : Nat) (hc : s.counter + 1 < 4096)
    (h1 : s.memory s.counter = 0xF0 + x) (h2 : s.memory (s.counter + 1) = 0x0A) (hx : x < 16)
    (hkeys : ∀ k, k < 16 → s.keypad k = 0) :
    ∃ t, s.Cycle = .ok t ∧ t.counter = s.counter ∧ t.registers = s.registers ∧
      t.index = s.index ∧ t.memory = s.memory ∧ t.stack = s.stack ∧ t.sp = s.sp ∧
      t.display = s.display ∧ t.keypad = s.keypad := by
  have hidle := OP_Fx0A_idle (s.latched ((0xF0 + x) * 256 + 0x0A)) hkeys
  refine ⟨_, (Cycle_Fx0A s x hc h1 h2 hx).1, ?_, ?_, ?_, ?_, ?_, ?_, ?_, ?_⟩
  · rw [tick_counter, hidle]
    show ((s.counter + 2) % 65536 + 65536 - 2) % 65536 = s.counter
    omega
  · rw [tick_registers, hidle]; rfl
  · rw [tick_index, hidle]; rfl
  · rw [tick_memory, hidle]; rfl
  · rw [tick_stack, hidle]; rfl
  · rw [tick_sp, hidle]; rfl
  · rw [tick_display, hidle]; rfl
  · rw [tick_keypad, hidle]; rfl

/-- C8: with the counter `c` (`c + 1 < 4096`) at `Fx0A` and all 16 keypad cells unpressed,
any number `n` of cycles succeeds and leaves the counter at `c` and every register, the
index, memory, the stack and the frame buffer unchanged (and the stack pointer and keypad
too); the timers are not constrained. -/
theorem wait_for_key_blocks (n : Nat) (s : Chip8) (x : Nat) (hc : s.counter + 1 < 4096)
    (h1 : s.memory s.counter = 0xF0 + x) (h2 : s.memory (s.counter + 1) = 0x0A) (hx : x < 16)
    (hkeys : ∀ k, k < 16 → s.keypad k = 0) :
    ∃ t, s.cycles n = .ok t ∧ t.counter = s.counter ∧ t.registers = s.registers ∧
      t.index = s.index ∧ t.memory = s.memory ∧ t.stack = s.stack ∧ t.sp = s.sp ∧
      t.display = s.display ∧ t.keypad = s.keypad := by
  induction n generalizing s with
  | zero => exact ⟨s, rfl, rfl, rfl, rfl, rfl, rfl, rfl, rfl, rfl⟩
  | succ n ih =>
    obtain ⟨t1, hs1, hcnt1, hreg1, hidx1, hmem1, hstk1, hsp1, hdis1, hkey1⟩ :=
      Cycle_Fx0A_idle s x hc h1 h2 hx hkeys
    obtain ⟨t, hs, hcnt, hreg, hidx, hmem, hstk, hsp, hdis, hkey⟩ :=
      ih t1 (by omega) (by rw [hcnt1, hmem1]; exact h1) (by rw [hcnt1, hmem1]; exact h2)
        (by rw [hkey1]; exact hkeys)
    refine ⟨t, ?_, by omega, hreg.trans hreg1, hidx.trans hidx1, hmem.trans hmem1,
      hstk.trans hstk1, hsp.trans hsp1, hdis.trans hdis1, hkey.trans hkey1⟩
    simp only [Chip8.cycles, hs1, hs]

/-- Witness for C8: `F30A` at 0x200 with an idle keypad, after 5 cycles. -/
theorem wait_for_key_blocks_witness :
    ((Chip8.sampleImage [0xF3, 0x0A] (fun i => i) (fun _ => 0)).counter + 1 < 4096 ∧
      ∀ k, k < 16 → (Chip8.sampleImage [0xF3, 0x0A] (fun i => i) (fun _ => 0)).keypad k = 0) ∧
    ∃ t, (Chip8.sampleImage [0xF3, 0x0A] (fun i => i) (fun _ => 0)).cycles 5 = .ok t ∧
      t.counter = 0x200 ∧ t.registers 3 = 3 := by
  obtain ⟨t, h1, h2, h3, -⟩ :=
    wait_for_key_blocks 5 (Chip8.sampleImage [0xF3, 0x0A] (fun i => i) (fun _ => 0)) 3
      (by decide) (by decide) (by decide) (by decide) (fun _ _ => rfl)
  exact ⟨⟨by decide, fun _ _ => rfl⟩, t, h1, h2, by rw [h3]; rfl⟩

/-- C9: with the counter `c` (`c + 1 < 4096`) at `Fx0A` and at least one keypad cell
pressed, one cycle sets `register[x]` to the smallest pressed index `k`, leaves every other
register unchanged and leaves the counter at `c + 2`. -/
theorem wait_for_key_pressed (s : Chip8) (x : Nat) (hc : s.counter + 1 < 4096)
    (h1 : s.memory s.counter = 0xF0 + x) (h2 : s.memory (s.counter + 1) = 0x0A) (hx : x < 16)
    (hpressed : ∃ k, k < 16 ∧ s.keypad k ≠ 0) :
    ∃ t k, s.Cycle = .ok t ∧ k < 16 ∧ s.keypad k ≠ 0 ∧ (∀ j, j < k → s.keypad j = 0) ∧
      t.registers x = k ∧ (∀ i, i ≠ x → t.registers i = s.registers i) ∧
      t.counter = s.counter + 2 := by
  have hcnt : (s.counter + 2) % 65536 = s.counter + 2 := by omega
  obtain ⟨hcyc, hfx⟩ := Cycle_Fx0A s x hc h1 h2 hx
  obtain ⟨k, hk, hne, hlow, heq⟩ :=
    OP_Fx0A_pressed (s.latched ((0xF0 + x) * 256 + 0x0A)) (by simpa using hpressed)
  rw [hfx] at heq
  refine ⟨_, k, hcyc, hk, by simpa using hne, by simpa using hlow, ?_, ?_, ?_⟩
  · rw [heq]; simp
  · intro i hi
    rw [heq]; simp [Function.update_apply, hi]
  · rw [heq]; simp [hcnt]

/-- Witness for C9: `F30A` with keys 6 and 9 pressed puts 6 in V3 and advances to 0x202. -/
theorem wait_for_key_pressed_witness :
    (∃ k, k < 16 ∧
      (Chip8.sampleImage [0xF3, 0x0A] (fun i => i)
        (fun k => if k = 6 ∨ k = 9 then 1 else 0)).keypad k ≠ 0) ∧
    ∃ t k, (Chip8.sampleImage [0xF3, 0x0A] (fun i => i)
        (fun k => if k = 6 ∨ k = 9 then 1 else 0)).Cycle = .ok t ∧
      k = 6 ∧ t.registers 3 = k ∧ t.registers 2 = 2 ∧ t.counter = 0x202 := by
  obtain ⟨t, k, h1, hk, hne, hlow, h2, h3, h4⟩ :=
    wait_for_key_pressed
      (Chip8.sampleImage [0xF3, 0x0A] (fun i => i) (fun k => if k = 6 ∨ k = 9 then 1 else 0)) 3
      (by decide) (by decide) (by decide) (by decide) ⟨6, by decide, by decide⟩
  have hk6 : k = 6 := by
    have h6 : ¬ 6 < k := fun h => absurd (hlow 6 h) (by decide)
    interval_cases k <;> first | rfl | exact absurd rfl hne
  exact ⟨⟨6, by decide, by decide⟩, t, k, h1, hk6, h2, h3 2 (by decide), h4⟩

/-! ## Draw sprite -/

/-- The sprite pixel at column `col < 8` is on exactly when bit `7 - col` of the row byte is
set. -/
theorem spritePixel_ne_zero (b col : Nat) (hcol : col < 8) :
    spritePixel b col ≠ 0 ↔ b.testBit (7 - col) = true := by
  unfold spritePixel
  interval_cases col
  · have h := Nat.and_two_pow b 7
    cases hb : b.testBit 7 <;> simp [hb] at h <;> simp [h, hb]
  · have h := Nat.and_two_pow b 6
    cases hb : b.testBit 6 <;> simp [hb] at h <;> simp [h, hb]
  · have h := Nat.and_two_pow b 5
    cases hb : b.testBit 5 <;> simp [hb] at h <;> simp [h, hb]
  · have h := Nat.and_two_pow b 4
    cases hb : b.testBit 4 <;> simp [hb] at h <;> simp [h, hb]
  · have h := Nat.and_two_pow b 3
    cases hb : b.testBit 3 <;> simp [hb] at h <;> simp [h, hb]
  · have h := Nat.and_two_pow b 2
    cases hb : b.testBit 2 <;> simp [hb] at h <;> simp [h, hb]
  · have h := Nat.and_two_pow b 1
    cases hb : b.testBit 1 <;> simp [hb] at h <;> simp [h, hb]
  · have h := Nat.and_two_pow b 0
    cases hb : b.testBit 0 <;> simp [hb] at h <;> simp [h, hb]

/-- One step of the column loop, inside the frame buffer. -/
theorem drawPixel_eq (b xPos yPos row col : Nat) (u : Chip8) (hcol : col < 8)
    (hin : (yPos + row) * 64 + (xPos + col) < 2048) :
    Chip8.drawPixel b xPos yPos row col u =
      .ok (if b.testBit (7 - col) = true then
          { u with
            registers :=
              if u.display ((yPos + row) * 64 + (xPos + col)) = 0xFFFFFFFF then
                Function.update u.registers 0xF 1
              else u.registers
            display :=
              Function.update u.display ((yPos + row) * 64 + (xPos + col))
                (u.display ((yPos + row) * 64 + (xPos + col)) ^^^ 0xFFFFFFFF) }
        else u) := by
  have hin' : (yPos + row) * DISPLAY_WIDTH + (xPos + col) < VIDEO_WIDTH * VIDEO_HEIGHT := hin
  unfold Chip8.drawPixel
  simp only
  by_cases hbit : b.testBit (7 - col) = true
  · have hpix : spritePixel b col ≠ 0 := (spritePixel_ne_zero b col hcol).2 hbit
    rw [if_pos hpix, if_pos hin', if_pos hbit]
    by_cases hon : u.display ((yPos + row) * DISPLAY_WIDTH + (xPos + col)) = 0xFFFFFFFF
    · have hon' : u.display ((yPos + row) * 64 + (xPos + col)) = 0xFFFFFFFF := hon
      rw [if_pos hon, if_pos hon']
    · have hon' : ¬ u.display ((yPos + row) * 64 + (xPos + col)) = 0xFFFFFFFF := hon
      rw [if_neg hon, if_neg hon']
  · have hpix : ¬ spritePixel b col ≠ 0 := fun h => hbit ((spritePixel_ne_zero b col hcol).1 h)
    rw [if_neg hpix, if_neg hbit]

/-- The column loop of `OP_Dxyn` after `n ≤ 8` columns of one sprite row that lies inside
the frame buffer: the cells under set bits are XORed with 0xFFFFFFFF, register 0xF becomes
1 when one of them was 0xFFFFFFFF, and nothing else changes. -/
theorem drawPixel_loop (b xPos yPos row : Nat) (u : Chip8) (n : Nat) (hn : n ≤ 8)
    (hin : (yPos + row) * 64 + (xPos + 8) ≤ 2048) :
    ∃ t, forLoop (fun col t => Chip8.drawPixel b xPos yPos row col t) n u = .ok t ∧
      t.memory = u.memory ∧ t.index = u.index ∧ t.opcode = u.opcode ∧
      (∀ p, t.display p =
        if (yPos + row) * 64 + xPos ≤ p ∧ p < (yPos + row) * 64 + xPos + n ∧
            b.testBit (7 - (p - ((yPos + row) * 64 + xPos))) = true then
          u.display p ^^^ 0xFFFFFFFF
        else u.display p) ∧
      ((∃ c, c < n ∧ b.testBit (7 - c) = true ∧
          u.display ((yPos + row) * 64 + (xPos + c)) = 0xFFFFFFFF) →
        t.registers = Function.update u.registers 0xF 1) ∧
      ((¬ ∃ c, c < n ∧ b.testBit (7 - c) = true ∧
          u.display ((yPos + row) * 64 + (xPos + c)) = 0xFFFFFFFF) →
        t.registers = u.registers) := by
  induction n with
  | zero =>
    refine ⟨u, rfl, rfl, rfl, rfl, ?_, ?_, ?_⟩
    · intro p
      have h : ¬ ((yPos + row) * 64 + xPos ≤ p ∧ p < (yPos + row) * 64 + xPos + 0 ∧
          b.testBit (7 - (p - ((yPos + row) * 64 + xPos))) = true) := by omega
      rw [if_neg h]
    · rintro ⟨c, hc, -⟩
      omega
    · intro _
      rfl
  | succ n ih =>
    obtain ⟨t, ht, hmem, hidx, hopc, hdis, hhit, hmiss⟩ := ih (by omega)
    have hcell : t.display ((yPos + row) * 64 + (xPos + n)) =
        u.display ((yPos + row) * 64 + (xPos + n)) := by
      rw [hdis]
      have h : ¬ ((yPos + row) * 64 + xPos ≤ (yPos + row) * 64 + (xPos + n) ∧
          (yPos + row) * 64 + (xPos + n) < (yPos + row) * 64 + xPos + n ∧
          b.testBit (7 - ((yPos + row) * 64 + (xPos + n) - ((yPos + row) * 64 + xPos)))
            = true) := by omega
      rw [if_neg h]
    have hstep : forLoop (fun col t => Chip8.drawPixel b xPos yPos row col t) (n + 1) u =
        Chip8.drawPixel b xPos yPos row n t := by
      simp only [forLoop, ht]
    rw [hstep, drawPixel_eq b xPos yPos row n t (by omega) (by omega)]
    by_cases hbit : b.testBit (7 - n) = true
    · rw [if_pos hbit]
      refine ⟨_, rfl, hmem, hidx, hopc, ?_, ?_, ?_⟩
      · intro p
        simp only
        by_cases hp : p = (yPos + row) * 64 + (xPos + n)
        · subst hp
          rw [Function.update_same, hcell]
          have hsub : (yPos + row) * 64 + (xPos + n) - ((yPos + row) * 64 + xPos) = n := by omega
          have h : (yPos + row) * 64 + xPos ≤ (yPos + row) * 64 + (xPos + n) ∧
              (yPos + row) * 64 + (xPos + n) < (yPos + row) * 64 + xPos + (n + 1) ∧
              b.testBit (7 - ((yPos + row) * 64 + (xPos + n) - ((yPos + row) * 64 + xPos)))
                = true := by
            rw [hsub]
            exact ⟨by omega, by omega, hbit⟩
          rw [if_pos h]
        · rw [Function.update_noteq hp, hdis]
          by_cases hin1 : (yPos + row) * 64 + xPos ≤ p ∧ p < (yPos + row) * 64 + xPos + n ∧
              b.testBit (7 - (p - ((yPos + row) * 64 + xPos))) = true
          · have h : (yPos + row) * 64 + xPos ≤ p ∧ p < (yPos + row) * 64 + xPos + (n + 1) ∧
                b.testBit (7 - (p - ((yPos + row) * 64 + xPos))) = true :=
              ⟨hin1.1, by omega, hin1.2.2⟩
            rw [if_pos hin1, if_pos h]
          · have h : ¬ ((yPos + row) * 64 + xPos ≤ p ∧
                p < (yPos + row) * 64 + xPos + (n + 1) ∧
                b.testBit (7 - (p - ((yPos + row) * 64 + xPos))) = true) := by
              rintro ⟨h1, h2, h3⟩
              exact hin1 ⟨h1, by omega, h3⟩
            rw [if_neg hin1, if_neg h]
      · rintro ⟨c, hc, hcb, hcd⟩
        simp only
        by_cases hon : t.display ((yPos + row) * 64 + (xPos + n)) = 0xFFFFFFFF
        · rw [if_pos hon]
          by_cases hprev : ∃ c, c < n ∧ b.testBit (7 - c) = true ∧
              u.display ((yPos + row) * 64 + (xPos + c)) = 0xFFFFFFFF
          · rw [hhit hprev, Function.update_idem]
          · rw [hmiss hprev]
        · rw [if_neg hon]
          have hprev : ∃ c, c < n ∧ b.testBit (7 - c) = true ∧
              u.display ((yPos + row) * 64 + (xPos + c)) = 0xFFFFFFFF := by
            refine ⟨c, ?_, hcb, hcd⟩
            by_contra hge
            have hcn : c = n := by omega
            subst hcn
            exact hon (hcell.trans hcd)
          exact hhit hprev
      · intro hnone
        simp only
        have hon : ¬ t.display ((yPos + row) * 64 + (xPos + n)) = 0xFFFFFFFF := by
          intro hon
          exact hnone ⟨n, by omega, hbit, hcell.symm.trans hon⟩
        rw [if_neg hon]
        apply hmiss
        rintro ⟨c, hc, hcb, hcd⟩
        exact hnone ⟨c, by omega, hcb, hcd⟩
    · rw [if_neg hbit]
      refine ⟨t, rfl, hmem, hidx, hopc, ?_, ?_, ?_⟩
      · intro p
        rw [hdis]
        by_cases hin1 : (yPos + row) * 64 + xPos ≤ p ∧ p < (yPos + row) * 64 + xPos + n ∧
            b.testBit (7 - (p - ((yPos + row) * 64 + xPos))) = true
        · have h : (yPos + row) * 64 + xPos ≤ p ∧ p < (yPos + row) * 64 + xPos + (n + 1) ∧
              b.testBit (7 - (p - ((yPos + row) * 64 + xPos))) = true :=
            ⟨hin1.1, by omega, hin1.2.2⟩
          rw [if_pos hin1, if_pos h]
        · have h : ¬ ((yPos + row) * 64 + xPos ≤ p ∧
              p < (yPos + row) * 64 + xPos + (n + 1) ∧
              b.testBit (7 - (p - ((yPos + row) * 64 + xPos))) = true) := by
            rintro ⟨h1, h2, h3⟩
            by_cases hpn : p = (yPos + row) * 64 + xPos + n
            · subst hpn
              have hsub : (yPos + row) * 64 + xPos + n - ((yPos + row) * 64 + xPos) = n := by
                omega
              rw [hsub] at h3
              exact hbit h3
            · exact hin1 ⟨h1, by omega, h3⟩
          rw [if_neg hin1, if_neg h]
      · rintro ⟨c, hc, hcb, hcd⟩
        apply hhit
        refine ⟨c, ?_, hcb, hcd⟩
        by_contra hge
        have hcn : c = n := by omega
        subst hcn
        exact hbit hcb
      · intro hnone
        apply hmiss
        rintro ⟨c, hc, hcb, hcd⟩
        exact hnone ⟨c, by omega, hcb, hcd⟩

/-- One more iteration of a loop. -/
theorem forLoop_succ {σ : Type} (body : Nat → σ → Except Fault σ) (n : Nat) (s : σ) :
    forLoop body (n + 1) s =
      match forLoop body n s with
      | .ok t => body n t
      | .error e => .error e := rfl

/-- Membership in `underSprite`, unfolded. -/
theorem underSprite_iff (memory : Nat → Nat) (index xPos yPos rows p : Nat) :
    underSprite memory index xPos yPos rows p = true ↔
      (yPos ≤ p / 64 ∧ p / 64 < yPos + rows ∧ xPos ≤ p % 64 ∧ p % 64 < xPos + 8 ∧
        (memory (index + (p / 64 - yPos))).testBit (7 - (p % 64 - xPos)) = true) := by
  simp only [underSprite, decide_eq_true_eq]

/-- The row loop of `OP_Dxyn` after `m` rows of a sprite that lies inside the frame buffer
and inside memory: the cells under set bits are XORed with 0xFFFFFFFF, register 0xF becomes
1 when one of them was 0xFFFFFFFF, and nothing else changes. -/
theorem drawRow_loop (xPos yPos : Nat) (s1 : Chip8) (m : Nat) (hx : xPos + 8 ≤ 64)
    (hy : yPos + m ≤ 32) (hmemb : s1.index + m ≤ 4096) :
    ∃ t, forLoop (fun row t => Chip8.drawRow xPos yPos row t) m s1 = .ok t ∧
      t.memory = s1.memory ∧ t.index = s1.index ∧ t.opcode = s1.opcode ∧
      (∀ p, t.display p =
        if underSprite s1.memory s1.index xPos yPos m p = true then
          s1.display p ^^^ 0xFFFFFFFF
        else s1.display p) ∧
      ((∃ r c, r < m ∧ c < 8 ∧ (s1.memory (s1.index + r)).testBit (7 - c) = true ∧
          s1.display ((yPos + r) * 64 + (xPos + c)) = 0xFFFFFFFF) →
        t.registers = Function.update s1.registers 0xF 1) ∧
      ((¬ ∃ r c, r < m ∧ c < 8 ∧ (s1.memory (s1.index + r)).testBit (7 - c) = true ∧
          s1.display ((yPos + r) * 64 + (xPos + c)) = 0xFFFFFFFF) →
        t.registers = s1.registers) := by
  induction m with
  | zero =>
    refine ⟨s1, rfl, rfl, rfl, rfl, ?_, ?_, ?_⟩
    · intro p
      have h : ¬ underSprite s1.memory s1.index xPos yPos 0 p = true := by
        rw [underSprite_iff]
        omega
      rw [if_neg h]
    · rintro ⟨r, c, hr, -⟩
      omega
    · intro _
      rfl
  | succ m ih =>
    obtain ⟨t, ht, hmem, hidx, hopc, hdis, hhit, hmiss⟩ := ih (by omega) (by omega)
    have hlt : t.index + m < MEMORY_SIZE := by
      show t.index + m < 4096
      rw [hidx]
      omega
    obtain ⟨t', ht', hmem', hidx', hopc', hdis', hhit', hmiss'⟩ :=
      drawPixel_loop (t.memory (t.index + m)) xPos yPos m t 8 (by omega) (by omega)
    have hbyte : t.memory (t.index + m) = s1.memory (s1.index + m) := by rw [hmem, hidx]
    rw [hbyte] at hdis' hhit' hmiss'
    have hstep : forLoop (fun row t => Chip8.drawRow xPos yPos row t) (m + 1) s1 = .ok t' := by
      rw [forLoop_succ, ht]
      show Chip8.drawRow xPos yPos m t = .ok t'
      unfold Chip8.drawRow
      rw [if_pos hlt]
      exact ht'
    -- the cells of row `m` still hold what they held at the start
    have hrow : ∀ c, c < 8 → t.display ((yPos + m) * 64 + (xPos + c)) =
        s1.display ((yPos + m) * 64 + (xPos + c)) := by
      intro c hc
      rw [hdis]
      have h : ¬ underSprite s1.memory s1.index xPos yPos m
          ((yPos + m) * 64 + (xPos + c)) = true := by
        rw [underSprite_iff]
        omega
      rw [if_neg h]
    refine ⟨t', hstep, hmem'.trans hmem, hidx'.trans hidx, hopc'.trans hopc, ?_, ?_, ?_⟩
    · intro p
      rw [hdis' p, hdis p]
      by_cases hin : (yPos + m) * 64 + xPos ≤ p ∧ p < (yPos + m) * 64 + xPos + 8
      · have hq : p / 64 = yPos + m := by omega
        have hr : p % 64 = p - (yPos + m) * 64 := by omega
        have hsub : p - ((yPos + m) * 64 + xPos) = p % 64 - xPos := by omega
        have hrowi : p / 64 - yPos = m := by omega
        have hold : ¬ underSprite s1.memory s1.index xPos yPos m p = true := by
          rw [underSprite_iff]
          omega
        rw [if_neg hold, hsub]
        by_cases hbit : (s1.memory (s1.index + m)).testBit (7 - (p % 64 - xPos)) = true
        · have hnew : underSprite s1.memory s1.index xPos yPos (m + 1) p = true := by
            rw [underSprite_iff, hrowi]
            exact ⟨by omega, by omega, by omega, by omega, hbit⟩
          rw [if_pos ⟨hin.1, hin.2, hbit⟩, if_pos hnew]
        · have hnew : ¬ underSprite s1.memory s1.index xPos yPos (m + 1) p = true := by
            rw [underSprite_iff, hrowi]
            rintro ⟨-, -, -, -, h⟩
            exact hbit h
          have hno : ¬ ((yPos + m) * 64 + xPos ≤ p ∧ p < (yPos + m) * 64 + xPos + 8 ∧
              (s1.memory (s1.index + m)).testBit (7 - (p % 64 - xPos)) = true) := by
            rintro ⟨-, -, h⟩
            exact hbit h
          rw [if_neg hno, if_neg hnew]
      · have hno : ¬ ((yPos + m) * 64 + xPos ≤ p ∧ p < (yPos + m) * 64 + xPos + 8 ∧
            (s1.memory (s1.index + m)).testBit
              (7 - (p - ((yPos + m) * 64 + xPos))) = true) := by
          rintro ⟨h1, h2, -⟩
          exact hin ⟨h1, h2⟩
        rw [if_neg hno]
        have hiff : underSprite s1.memory s1.index xPos yPos (m + 1) p = true ↔
            underSprite s1.memory s1.index xPos yPos m p = true := by
          rw [underSprite_iff, underSprite_iff]
          constructor
          · rintro ⟨h1, h2, h3, h4, h5⟩
            exact ⟨h1, by omega, h3, h4, h5⟩
          · rintro ⟨h1, h2, h3, h4, h5⟩
            exact ⟨h1, by omega, h3, h4, h5⟩
        by_cases hu : underSprite s1.memory s1.index xPos yPos m p = true
        · rw [if_pos hu, if_pos (hiff.2 hu)]
        · rw [if_neg hu, if_neg (fun h => hu (hiff.1 h))]
    · rintro ⟨r, c, hr, hc, hb, hd⟩
      by_cases hrowhit : ∃ c, c < 8 ∧ (s1.memory (s1.index + m)).testBit (7 - c) = true ∧
          t.display ((yPos + m) * 64 + (xPos + c)) = 0xFFFFFFFF
      · rw [hhit' hrowhit]
        by_cases hprev : ∃ r c, r < m ∧ c < 8 ∧
            (s1.memory (s1.index + r)).testBit (7 - c) = true ∧
            s1.display ((yPos + r) * 64 + (xPos + c)) = 0xFFFFFFFF
        · rw [hhit hprev, Function.update_idem]
        · rw [hmiss hprev]
      · rw [hmiss' hrowhit]
        apply hhit
        refine ⟨r, c, ?_, hc, hb, hd⟩
        by_contra hge
        have hrm : r = m := by omega
        subst hrm
        exact hrowhit ⟨c, hc, hb, (hrow c hc).trans hd⟩
    · intro hnone
      have hrowhit : ¬ ∃ c, c < 8 ∧ (s1.memory (s1.index + m)).testBit (7 - c) = true ∧
          t.display ((yPos + m) * 64 + (xPos + c)) = 0xFFFFFFFF := by
        rintro ⟨c, hc, hb, hd⟩
        exact hnone ⟨m, c, by omega, hc, hb, (hrow c hc).symm.trans hd⟩
      rw [hmiss' hrowhit]
      apply hmiss
      rintro ⟨r, c, hr, hc, hb, hd⟩
      exact hnone ⟨r, c, by omega, hc, hb, hd⟩

/-- XOR with 0xFFFFFFFF toggles a cell that is off or on. -/
theorem xor_toggled (v : Nat) (hv : v = 0 ∨ v = 0xFFFFFFFF) : v ^^^ 0xFFFFFFFF = toggled v := by
  rcases hv with h | h <;> subst h <;> decide

/-- C10: `OP_Dxyn` with the sprite fully on screen (`px + 8 ≤ 64`, `py + n ≤ 32`, where
`px = register[x] mod 64`, `py = register[y] mod 32`), the `n` row bytes inside memory and
every frame-buffer cell off (0) or on (0xFFFFFFFF): the handler succeeds; the cell at column
`px + c` of row `py + r` is toggled exactly when bit `7 - c` of `memory[index + r]` is set;
every other cell is unchanged; register 0xF is 1 if some cell that was on was toggled and 0
otherwise.  (The positions are read before register 0xF is reset, so `x` or `y` equal to
0xF needs no separate treatment.)  The other registers, memory, index and opcode are kept,
and the cells stay off or on. -/
theorem OP_Dxyn_on_screen (s : Chip8) (x y n px py : Nat)
    (hx : (s.opcode &&& 0x0F00) >>> 8 = x) (hy : (s.opcode &&& 0x00F0) >>> 4 = y)
    (hn : s.opcode &&& 0x000F = n)
    (hpx : s.registers x % 64 = px) (hpy : s.registers y % 32 = py)
    (hfitx : px + 8 ≤ 64) (hfity : py + n ≤ 32) (hfitm : s.index + n ≤ 4096)
    (hcells : ∀ p, p < 2048 → s.display p = 0 ∨ s.display p = 0xFFFFFFFF) :
    ∃ t, s.OP_Dxyn = .ok t ∧
      (∀ r c, r < n → c < 8 →
        t.display ((py + r) * 64 + (px + c)) =
          if (s.memory (s.index + r)).testBit (7 - c) = true then
            toggled (s.display ((py + r) * 64 + (px + c)))
          else s.display ((py + r) * 64 + (px + c))) ∧
      (∀ p, (∀ r c, r < n → c < 8 → p ≠ (py + r) * 64 + (px + c)) →
        t.display p = s.display p) ∧
      ((∃ r c, r < n ∧ c < 8 ∧ (s.memory (s.index + r)).testBit (7 - c) = true ∧
          s.display ((py + r) * 64 + (px + c)) = 0xFFFFFFFF) → t.registers 0xF = 1) ∧
      ((¬ ∃ r c, r < n ∧ c < 8 ∧ (s.memory (s.index + r)).testBit (7 - c) = true ∧
          s.display ((py + r) * 64 + (px + c)) = 0xFFFFFFFF) → t.registers 0xF = 0) ∧
      (∀ i, i ≠ 0xF → t.registers i = s.registers i) ∧
      t.memory = s.memory ∧ t.index = s.index ∧ t.opcode = s.opcode ∧
      (∀ p, p < 2048 → t.display p = 0 ∨ t.display p = 0xFFFFFFFF) := by
  obtain ⟨t, ht, hmem, hidx, hopc, hdis, hhit, hmiss⟩ :=
    drawRow_loop px py { s with registers := Function.update s.registers 0xF 0 } n hfitx hfity
      hfitm
  simp only at hmem hidx hopc hdis hhit hmiss
  have hrun : s.OP_Dxyn = .ok t := by
    unfold Chip8.OP_Dxyn
    simp only [hx, hy, hn]
    show forLoop (fun row t => Chip8.drawRow (s.registers x % 64) (s.registers y % 32) row t) n
      { s with registers := Function.update s.registers 0xF 0 } = .ok t
    rw [hpx, hpy]
    exact ht
  refine ⟨t, hrun, ?_, ?_, ?_, ?_, ?_, hmem, hidx, hopc, ?_⟩
  · intro r c hr hc
    have hq : ((py + r) * 64 + (px + c)) / 64 = py + r := by omega
    have hm : ((py + r) * 64 + (px + c)) % 64 = px + c := by omega
    have hcell := hcells ((py + r) * 64 + (px + c)) (by omega)
    rw [hdis]
    by_cases hbit : (s.memory (s.index + r)).testBit (7 - c) = true
    · have hu : underSprite s.memory s.index px py n ((py + r) * 64 + (px + c)) = true := by
        rw [underSprite_iff, hq, hm, Nat.add_sub_cancel_left, Nat.add_sub_cancel_left]
        exact ⟨by omega, by omega, by omega, by omega, hbit⟩
      rw [if_pos hu, if_pos hbit, xor_toggled _ hcell]
    · have hu : ¬ underSprite s.memory s.index px py n ((py + r) * 64 + (px + c)) = true := by
        rw [underSprite_iff, hq, hm, Nat.add_sub_cancel_left, Nat.add_sub_cancel_left]
        rintro ⟨-, -, -, -, h⟩
        exact hbit h
      rw [if_neg hu, if_neg hbit]
  · intro p hp
    rw [hdis]
    have hu : ¬ underSprite s.memory s.index px py n p = true := by
      rw [underSprite_iff]
      rintro ⟨h1, h2, h3, h4, -⟩
      exact hp (p / 64 - py) (p % 64 - px) (by omega) (by omega) (by omega)
    rw [if_neg hu]
  · intro h
    rw [hhit h]
    simp
  · intro h
    rw [hmiss h]
    simp
  · intro i hi
    by_cases h : ∃ r c, r < n ∧ c < 8 ∧ (s.memory (s.index + r)).testBit (7 - c) = true ∧
        s.display ((py + r) * 64 + (px + c)) = 0xFFFFFFFF
    · rw [hhit h]
      simp [Function.update_apply, hi]
    · rw [hmiss h]
      simp [Function.update_apply, hi]
  · intro p hp
    rw [hdis]
    rcases hcells p hp with h0 | h1
    · rw [h0]
      split <;> simp
    · rw [h1]
      split <;> simp

/-- Witness for C10: the one-row sprite `0xFF` drawn at (0,0) on an all-off buffer turns on
the 8 leftmost cells of row 0 with flag 0; drawn again it turns them off with flag 1. -/
theorem OP_Dxyn_on_screen_witness :
    (Chip8.sampleSprite.registers 0 % 64 + 8 ≤ 64 ∧ Chip8.sampleSprite.index + 1 ≤ 4096) ∧
    ∃ t1 t2, Chip8.sampleSprite.OP_Dxyn = .ok t1 ∧
      (∀ c, c < 8 → t1.display c = 0xFFFFFFFF) ∧ (∀ p, 8 ≤ p → t1.display p = 0) ∧
      t1.registers 0xF = 0 ∧
      t1.OP_Dxyn = .ok t2 ∧
      (∀ c, c < 8 → t2.display c = 0) ∧ (∀ p, 8 ≤ p → t2.display p = 0) ∧
      t2.registers 0xF = 1 := by
  have hbits : ∀ c, c < 8 → (0xFF : Nat).testBit (7 - c) = true := by
    intro c hc
    interval_cases c <;> decide
  obtain ⟨t1, h1, hc1, ho1, -, hf1, hr1, hmem1, hidx1, hopc1, hcells1⟩ :=
    OP_Dxyn_on_screen Chip8.sampleSprite 0 1 1 0 0 (by decide) (by decide) (by decide)
      (by decide) (by decide) (by decide) (by decide) (by decide) (fun _ _ => Or.inl rfl)
  have d1 : ∀ c, c < 8 → t1.display c = 0xFFFFFFFF := by
    intro c hc
    have h := hc1 0 c (by omega) hc
    have hb : (Chip8.sampleSprite.memory (Chip8.sampleSprite.index + 0)).testBit (7 - c)
        = true := hbits c hc
    rw [if_pos hb] at h
    simpa using h
  have e1 : ∀ p, 8 ≤ p → t1.display p = 0 := by
    intro p hp
    exact ho1 p (fun r c hr hc => by omega)
  have f1 : t1.registers 0xF = 0 := by
    apply hf1
    rintro ⟨r, c, -, -, -, h⟩
    have h0 : (0 : Nat) = 0xFFFFFFFF := h
    exact absurd h0 (by decide)
  obtain ⟨t2, h2, hc2, ho2, hf2, -, -⟩ :=
    OP_Dxyn_on_screen t1 0 1 1 0 0 (by rw [hopc1]; decide) (by rw [hopc1]; decide)
      (by rw [hopc1]; decide) (by rw [hr1 0 (by decide)]; decide)
      (by rw [hr1 1 (by decide)]; decide) (by decide) (by decide)
      (by rw [hidx1]; decide) hcells1
  have hb2 : ∀ c, c < 8 → (t1.memory (t1.index + 0)).testBit (7 - c) = true := by
    intro c hc
    rw [hmem1, hidx1]
    exact hbits c hc
  have d2 : ∀ c, c < 8 → t2.display c = 0 := by
    intro c hc
    have h := hc2 0 c (by omega) hc
    rw [if_pos (hb2 c hc)] at h
    have hon : t1.display ((0 + 0) * 64 + (0 + c)) = 0xFFFFFFFF := by simpa using d1 c hc
    rw [hon] at h
    simpa using h
  have e2 : ∀ p, 8 ≤ p → t2.display p = 0 := by
    intro p hp
    rw [ho2 p (fun r c hr hc => by omega)]
    exact e1 p hp
  have f2 : t2.registers 0xF = 1 := by
    apply hf2
    exact ⟨0, 0, by omega, by omega, hb2 0 (by omega), by simpa using d1 0 (by omega)⟩
  exact ⟨⟨by decide, by decide⟩, t1, t2, h1, d1, e1, f1, h2, d2, e2, f2⟩

/-! ## Dispatch tables -/

/-- A table all of whose entries are instruction handlers. -/
theorem tableInit_handlers (j : Nat) (g : Chip8Func) (h : tableInit j = some g) :
    g.isDispatcher = false := by
  unfold tableInit at h
  split_ifs at h
  cases h
  rfl

/-- Assigning an instruction handler keeps a table free of dispatchers. -/
theorem assign_handlers (i : Nat) (f : Chip8Func) (t : Nat → Option Chip8Func)
    (hf : f.isDispatcher = false)
    (ht : ∀ j g, t j = some g → g.isDispatcher = false) :
    ∀ j g, assign i f t j = some g → g.isDispatcher = false := by
  intro j g h
  unfold assign at h
  split_ifs at h
  · cases h
    exact hf
  · exact ht j g h

/-- The four secondary tables hold instruction handlers only, never a dispatcher, so the
`nestedDispatch` case of `callHandler` is not reached from `Cycle`. -/
theorem secondary_tables_hold_handlers (i : Nat) (f : Chip8Func)
    (h : table0 i = some f ∨ table8 i = some f ∨ tableE i = some f ∨ tableF i = some f) :
    f.isDispatcher = false := by
  rcases h with h | h | h | h
  · revert i f
    unfold table0
    repeat first | exact tableInit_handlers | refine assign_handlers _ _ _ rfl ?_
  · revert i f
    unfold table8
    repeat first | exact tableInit_handlers | refine assign_handlers _ _ _ rfl ?_
  · revert i f
    unfold tableE
    repeat first | exact tableInit_handlers | refine assign_handlers _ _ _ rfl ?_
  · revert i f
    unfold tableF
    repeat first | exact tableInit_handlers | refine assign_handlers _ _ _ rfl ?_

/-! ## Store BCD -/

/-- C13: `OP_Fx33` with `index + 2 < 4096` and `register[x] = v` (a byte) succeeds and
leaves `memory[index] = v / 100`, `memory[index + 1] = (v / 10) mod 10`,
`memory[index + 2] = v mod 10`, so that 100·m0 + 10·m1 + m2 = v with m0 ≤ 2 and m1, m2 ≤ 9;
every other memory byte, every register and the index are unchanged. -/
theorem OP_Fx33_digits (s : Chip8) (x v : Nat) (hx : (s.opcode &&& 0x0F00) >>> 8 = x)
    (hv : s.registers x = v) (hbyte : v < 256) (hb : s.index + 2 < 4096) :
    ∃ t, s.OP_Fx33 = .ok t ∧
      t.memory s.index = v / 100 ∧ t.memory (s.index + 1) = v / 10 % 10 ∧
      t.memory (s.index + 2) = v % 10 ∧
      100 * t.memory s.index + 10 * t.memory (s.index + 1) + t.memory (s.index + 2) = v ∧
      t.memory s.index ≤ 2 ∧ t.memory (s.index + 1) ≤ 9 ∧ t.memory (s.index + 2) ≤ 9 ∧
      (∀ a, a ≠ s.index → a ≠ s.index + 1 → a ≠ s.index + 2 → t.memory a = s.memory a) ∧
      t.registers = s.registers ∧ t.index = s.index := by
  have hb2 : s.index + 2 < MEMORY_SIZE := hb
  have hb1 : s.index + 1 < MEMORY_SIZE := by
    show s.index + 1 < 4096
    omega
  have hb0 : s.index < MEMORY_SIZE := by
    show s.index < 4096
    omega
  have hmod : v % 256 = v := Nat.mod_eq_of_lt hbyte
  have hrun : s.OP_Fx33 = .ok
      { s with
        memory := Function.update (Function.update (Function.update s.memory (s.index + 2)
          (v % 10)) (s.index + 1) (v / 10 % 10)) s.index (v / 10 / 10) } := by
    unfold Chip8.OP_Fx33
    simp only [hx, hv, hmod, hb2, hb1, hb0, if_true]
  have h01 : s.index ≠ s.index + 1 := by omega
  have h02 : s.index ≠ s.index + 2 := by omega
  have h12 : s.index + 1 ≠ s.index + 2 := by omega
  have h21 : s.index + 2 ≠ s.index + 1 := by omega
  have h20 : s.index + 2 ≠ s.index := by omega
  have h10 : s.index + 1 ≠ s.index := by omega
  have hm0 : (Function.update (Function.update (Function.update s.memory (s.index + 2)
      (v % 10)) (s.index + 1) (v / 10 % 10)) s.index (v / 10 / 10)) s.index = v / 100 := by
    rw [Function.update_same]
    omega
  have hm1 : (Function.update (Function.update (Function.update s.memory (s.index + 2)
      (v % 10)) (s.index + 1) (v / 10 % 10)) s.index (v / 10 / 10)) (s.index + 1)
      = v / 10 % 10 := by
    rw [Function.update_noteq h10, Function.update_same]
  have hm2 : (Function.update (Function.update (Function.update s.memory (s.index + 2)
      (v % 10)) (s.index + 1) (v / 10 % 10)) s.index (v / 10 / 10)) (s.index + 2)
      = v % 10 := by
    rw [Function.update_noteq h20, Function.update_noteq h21, Function.update_same]
  refine ⟨_, hrun, hm0, hm1, hm2, ?_, ?_, ?_, ?_, ?_, rfl, rfl⟩
  · dsimp only
    rw [hm0, hm1, hm2]
    omega
  · dsimp only
    rw [hm0]
    omega
  · dsimp only
    rw [hm1]
    omega
  · dsimp only
    rw [hm2]
    omega
  · intro a ha0 ha1 ha2
    dsimp only
    rw [Function.update_noteq ha0, Function.update_noteq ha1, Function.update_noteq ha2]

/-- Witness for C13: `F233` with V2 = 254 and index 0x300 stores 2, 5, 4. -/
theorem OP_Fx33_digits_witness :
    ({ Chip8.sample 0xF233 (fun _ => 254) with index := 0x300 } : Chip8).index + 2 < 4096 ∧
    ∃ t, Chip8.OP_Fx33 { Chip8.sample 0xF233 (fun _ => 254) with index := 0x300 } = .ok t ∧
      t.memory 0x300 = 2 ∧ t.memory 0x301 = 5 ∧ t.memory 0x302 = 4 := by
  obtain ⟨t, h, h0, h1, h2, -⟩ :=
    OP_Fx33_digits { Chip8.sample 0xF233 (fun _ => 254) with index := 0x300 } 2 254
      (by decide) (by decide) (by decide) (by decide)
  exact ⟨by decide, t, h, h0, h1, h2⟩

/-! ## Shifts -/

/-- C14: for `x` in 0..14 and `v = register[x]` (a byte), `OP_8xy6` leaves register 0xF =
v mod 2 and `register[x]` = v / 2, so 2·register[x] + register 0xF = v; `OP_8xyE` leaves
register 0xF = v / 128 and `register[x]` = (2·v) mod 256, so register[x] + 256·register 0xF
= 2·v; both change no register other than `x` and 0xF. -/
theorem shifts (s : Chip8) (x v : Nat) (hx : (s.opcode &&& 0x0F00) >>> 8 = x) (hx14 : x ≤ 14)
    (hv : s.registers x = v) (hbyte : v < 256) :
    (s.OP_8xy6.registers 0xF = v % 2 ∧ s.OP_8xy6.registers x = v / 2 ∧
      2 * s.OP_8xy6.registers x + s.OP_8xy6.registers 0xF = v ∧
      ∀ i, i ≠ x → i ≠ 0xF → s.OP_8xy6.registers i = s.registers i) ∧
    (s.OP_8xyE.registers 0xF = v / 128 ∧ s.OP_8xyE.registers x = 2 * v % 256 ∧
      s.OP_8xyE.registers x + 256 * s.OP_8xyE.registers 0xF = 2 * v ∧
      ∀ i, i ≠ x → i ≠ 0xF → s.OP_8xyE.registers i = s.registers i) := by
  have hxF : x ≠ 15 := by omega
  have hFx : (15 : Nat) ≠ x := by omega
  have hlsb : v &&& 0x1 = v % 2 := Nat.and_pow_two_sub_one_eq_mod v 1
  have hmsb : (v &&& 0x80) >>> 7 = v / 128 := by
    have h1 : (0x80 >>> 7 : Nat) = 2 ^ 1 - 1 := by decide
    rw [shiftRight_and, h1, Nat.and_pow_two_sub_one_eq_mod, Nat.shiftRight_eq_div_pow]
    omega
  have h6F : s.OP_8xy6.registers 0xF = v % 2 := by
    simp [Chip8.OP_8xy6, hx, hv, Function.update_apply, hFx, hlsb]
  have h6x : s.OP_8xy6.registers x = v / 2 := by
    simp [Chip8.OP_8xy6, hx, hv, Function.update_apply, hxF, Nat.shiftRight_eq_div_pow]
  have hEF : s.OP_8xyE.registers 0xF = v / 128 := by
    simp only [Chip8.OP_8xyE, hx, hv, Function.update_apply, hFx, if_false, if_true, hmsb]
  have hEx : s.OP_8xyE.registers x = 2 * v % 256 := by
    simp [Chip8.OP_8xyE, hx, hv, Function.update_apply, hxF, Nat.shiftLeft_eq, Nat.mul_comm]
  refine ⟨⟨h6F, h6x, ?_, ?_⟩, ⟨hEF, hEx, ?_, ?_⟩⟩
  · rw [h6F, h6x]; omega
  · intro i hi hiF
    simp [Chip8.OP_8xy6, hx, Function.update_apply, hi, hiF]
  · rw [hEF, hEx]; omega
  · intro i hi hiF
    simp [Chip8.OP_8xyE, hx, Function.update_apply, hi, hiF]

/-- Witness for C14: `8306` / `830E` with V3 = 0x85 give 0x42 with flag 1, and 0x0A with
flag 1. -/
theorem shifts_witness :
    (Chip8.sample 0x8306 (fun _ => 0x85)).registers 3 < 256 ∧
    (Chip8.sample 0x8306 (fun _ => 0x85)).OP_8xy6.registers 0xF = 1 ∧
    (Chip8.sample 0x8306 (fun _ => 0x85)).OP_8xy6.registers 3 = 0x42 ∧
    (Chip8.sample 0x8306 (fun _ => 0x85)).OP_8xyE.registers 0xF = 1 ∧
    (Chip8.sample 0x8306 (fun _ => 0x85)).OP_8xyE.registers 3 = 0x0A := by
  have h := shifts (Chip8.sample 0x8306 (fun _ => 0x85)) 3 0x85 (by decide) (by decide)
    (by decide) (by decide)
  exact ⟨by decide, h.1.1, h.1.2.1, h.2.1, h.2.2.1⟩

/-! ## Clear screen -/

/-- C16: after `OP_00E0` every frame-buffer cell is 0 and every other member of the state
is unchanged; running it twice gives exactly the state of running it once. -/
theorem OP_00E0_clears (s : Chip8) :
    (∀ p, s.OP_00E0.display p = 0) ∧
    (s.OP_00E0.registers = s.registers ∧ s.OP_00E0.memory = s.memory ∧
      s.OP_00E0.index = s.index ∧ s.OP_00E0.counter = s.counter ∧
      s.OP_00E0.stack = s.stack ∧ s.OP_00E0.sp = s.sp ∧
      s.OP_00E0.delayTimer = s.delayTimer ∧ s.OP_00E0.soundTimer = s.soundTimer ∧
      s.OP_00E0.keypad = s.keypad ∧ s.OP_00E0.opcode = s.opcode ∧
      s.OP_00E0.randGen = s.randGen) ∧
    s.OP_00E0.OP_00E0 = s.OP_00E0 :=
  ⟨fun _ => rfl, ⟨rfl, rfl, rfl, rfl, rfl, rfl, rfl, rfl, rfl, rfl, rfl⟩, rfl⟩

/-! ## Reverse subtract -/

/-- What `OP_8xy7` leaves in the destination when the source is not the flag register: the
wrapped difference of the old values. -/
theorem OP_8xy7_destination (s : Chip8) (x y : Nat)
    (hx : (s.opcode &&& 0x0F00) >>> 8 = x) (hy : (s.opcode &&& 0x00F0) >>> 4 = y)
    (hx14 : x ≤ 14) (hy14 : y ≤ 14) (hregs : ∀ i < 16, s.registers i < 256) :
    s.OP_8xy7.registers x = (s.registers y + 256 - s.registers x) % 256 := by
  have hxF : x ≠ 15 := by omega
  have hyF : y ≠ 15 := by omega
  have hxr := hregs x (by omega)
  have hmod : s.registers x % 256 = s.registers x := by omega
  simp only [Chip8.OP_8xy7, hx, hy]
  split <;> simp [Function.update_apply, hxF, hyF, hmod]

/-- What `OP_8xy7` leaves in the destination when the source is the flag register: the
minuend read is the flag just written, not the old register 0xF. -/
theorem OP_8xy7_destination_flag_source (s : Chip8) (x : Nat)
    (hx : (s.opcode &&& 0x0F00) >>> 8 = x) (hy : (s.opcode &&& 0x00F0) >>> 4 = 0xF)
    (hx14 : x ≤ 14) (hregs : ∀ i < 16, s.registers i < 256) :
    s.OP_8xy7.registers x =
      ((if s.registers 0xF > s.registers x then 1 else 0) + 256 - s.registers x) % 256 := by
  have hxF : x ≠ 15 := by omega
  have hxr := hregs x (by omega)
  have hmod : s.registers x % 256 = s.registers x := by omega
  simp only [Chip8.OP_8xy7, hx, hy]
  split <;> simp [Function.update_apply, hxF, hmod]

/-- C20: at `80F7` (x = 0, y = 0xF) with V0 = 3 and VF = 7 the old values give
(7 − 3) mod 256 = 4, but `OP_8xy7` leaves register 0 = 254. -/
theorem OP_8xy7_flag_source_overwritten :
    (Chip8.sample 0x80F7 (fun i => if i = 0 then 3 else 7)).registers 0xF = 7 ∧
    (Chip8.sample 0x80F7 (fun i => if i = 0 then 3 else 7)).registers 0 = 3 ∧
    (Chip8.sample 0x80F7 (fun i => if i = 0 then 3 else 7)).OP_8xy7.registers 0 = 254 := by
  decide

/-! ## Font glyphs -/

/-- C15: for a digit `d = register[x]` in 0..15, `OP_Fx29` sets index to 0x50 + 5·d, which
lies in 0x50..0x9B; when memory is that of the freshly constructed machine the five bytes
at `index .. index + 4` are rows 5·d .. 5·d + 4 of `fontset`; and the constructor leaves
every memory byte outside 0x50..0x9F zero. -/
theorem font_glyph (s : Chip8) (x d : Nat) (rng : Nat → Nat) (opcode0 : Nat)
    (hx : (s.opcode &&& 0x0F00) >>> 8 = x) (hd : s.registers x = d) (hd15 : d ≤ 15)
    (hmem : s.memory = (Chip8.create rng opcode0).memory) :
    s.OP_Fx29.index = 0x50 + 5 * d ∧ 0x50 ≤ s.OP_Fx29.index ∧ s.OP_Fx29.index ≤ 0x9B ∧
    (∀ i, i < 5 → s.OP_Fx29.memory (s.OP_Fx29.index + i) = fontset.getD (5 * d + i) 0) ∧
    (∀ a, a < 0x50 ∨ 0x9F < a → (Chip8.create rng opcode0).memory a = 0) := by
  have hidx : s.OP_Fx29.index = 0x50 + 5 * d := by
    simp only [Chip8.OP_Fx29, hx, hd]
    omega
  refine ⟨hidx, by omega, by omega, ?_, ?_⟩
  · intro i hi
    have hm : s.OP_Fx29.memory = s.memory := rfl
    rw [hm, hidx, hmem, create_eq]
    have h : 0x50 ≤ 0x50 + 5 * d + i ∧ 0x50 + 5 * d + i < 0x50 + 80 := by omega
    have hsub : 0x50 + 5 * d + i - 0x50 = 5 * d + i := by omega
    simp only [h, and_self, if_true, hsub]
  · intro a ha
    rw [create_eq]
    have h : ¬ (0x50 ≤ a ∧ a < 0x50 + 80) := by omega
    simp only [h, if_false]

/-- Witness for C15: on the fresh machine, digit 0xF gives index 0x9B and the glyph
F0 80 F0 80 80; digit 0 gives index 0x50 and the glyph F0 90 90 90 F0. -/
theorem font_glyph_witness :
    ({ Chip8.create (fun _ => 0) 0 with opcode := 0xF029, registers := fun _ => 0xF }
      : Chip8).registers 0 ≤ 15 ∧
    (Chip8.OP_Fx29 { Chip8.create (fun _ => 0) 0 with
        opcode := 0xF029, registers := fun _ => 0xF }).index = 0x9B ∧
    (Chip8.OP_Fx29 { Chip8.create (fun _ => 0) 0 with
        opcode := 0xF029, registers := fun _ => 0xF }).memory 0x9B = 0xF0 ∧
    (Chip8.OP_Fx29 { Chip8.create (fun _ => 0) 0 with
        opcode := 0xF029, registers := fun _ => 0xF }).memory 0x9C = 0x80 ∧
    (Chip8.OP_Fx29 { Chip8.create (fun _ => 0) 0 with
        opcode := 0xF029, registers := fun _ => 0xF }).memory 0x9F = 0x80 ∧
    (Chip8.OP_Fx29 { Chip8.create (fun _ => 0) 0 with
        opcode := 0xF029, registers := fun _ => 0 }).memory 0x51 = 0x90 := by
  obtain ⟨hi, -, -, hg, -⟩ :=
    font_glyph { Chip8.create (fun _ => 0) 0 with opcode := 0xF029, registers := fun _ => 0xF }
      0 0xF (fun _ => 0) 0 (by decide) rfl (by decide) rfl
  obtain ⟨hi0, -, -, hg0, -⟩ :=
    font_glyph { Chip8.create (fun _ => 0) 0 with opcode := 0xF029, registers := fun _ => 0 }
      0 0 (fun _ => 0) 0 (by decide) rfl (by decide) rfl
  have g0 := hg 0 (by decide)
  have g1 := hg 1 (by decide)
  have g4 := hg 4 (by decide)
  have z1 := hg0 1 (by decide)
  rw [hi] at g0 g1 g4
  rw [hi0] at z1
  exact ⟨by decide, hi, g0, g1, g4, z1⟩

/-! ## Unassigned table entries -/

/-- A cycle at an opcode of group 0 whose low nibble is neither 0x0, 0xE nor 0xF calls
through `table0[k]`, which the constructor leaves null. -/
theorem Cycle_group0_null (s : Chip8) (hi lo : Nat) (hc : s.counter + 1 < 4096)
    (hhi : s.memory s.counter = hi) (hlo : s.memory (s.counter + 1) = lo)
    (hhi16 : hi < 16) (hlo256 : lo < 256)
    (h0 : lo % 16 ≠ 0x0) (hE : lo % 16 ≠ 0xE) (hF : lo % 16 ≠ 0xF) :
    s.Cycle = .error .nullHandler := by
  have hf : table (hi / 16) = some Chip8Func.Table0 := by
    have h : hi / 16 = 0 := by omega
    rw [h]; decide
  have hn : (hi * 256 + lo) % 16 = lo % 16 := by omega
  have hlt : lo % 16 < 0xE + 1 := by omega
  have hnone : table0 (lo % 16) = none := by
    simp only [table0, assign, tableInit, h0, hE, if_false]
  rw [Cycle_fetch s hi lo _ hc hhi hlo (by omega) hlo256 hf]
  simp only [Chip8.call, Chip8.Table0, latched_opcode, field_n, hn, fetchHandler, hlt, if_true,
    hnone]

/-- C11: a cycle at `0001` (group 0, low nibble 1) and at `F001` (group F, low byte 0x01)
calls through a null table entry, and a cycle at `800F` (group 8, low nibble 0xF) and at
`F0FF` (group F, low byte above 0x65) reads past the end of its table: none of them
completes. -/
theorem Cycle_unassigned_entries :
    (Chip8.sampleImage [0x00, 0x01] (fun _ => 0) (fun _ => 0)).Cycle = .error .nullHandler ∧
    (Chip8.sampleImage [0xF0, 0x01] (fun _ => 0) (fun _ => 0)).Cycle = .error .nullHandler ∧
    (Chip8.sampleImage [0x80, 0x0F] (fun _ => 0) (fun _ => 0)).Cycle
      = .error .tableOutOfBounds ∧
    (Chip8.sampleImage [0xF0, 0xFF] (fun _ => 0) (fun _ => 0)).Cycle
      = .error .tableOutOfBounds :=
  ⟨rfl, rfl, rfl, rfl⟩

/-! ## Draw sprite at the edges -/

/-- C17: `D012` with V1 = 31 and two sprite rows writes the second row at cell index
32 · 64 = 2048, outside the frame buffer; `D011` with V0 = 60 and the row `0xFF` puts sprite
column 4 at cell 64 (column 0 of row 1) and leaves cell 0 (column 0 of row 0) untouched. -/
theorem OP_Dxyn_no_pixel_wrap :
    (Chip8.sampleDraw 0xD012 (fun i => if i = 1 then 31 else 0) [0x80, 0x80]).OP_Dxyn
      = .error .displayOutOfBounds ∧
    ∃ t, (Chip8.sampleDraw 0xD011 (fun i => if i = 0 then 60 else 0) [0xFF]).OP_Dxyn = .ok t ∧
      t.display 63 = 0xFFFFFFFF ∧ t.display 64 = 0xFFFFFFFF ∧ t.display 0 = 0 :=
  ⟨rfl, _, rfl, rfl, rfl, rfl⟩

/-! ## The cycle in terms of the selected handler -/

/-- A cycle latches the opcode, advances the counter, runs the selected handler and ticks
the timers. -/
theorem Cycle_eq_selectHandler (s : Chip8) (op : Nat) (hc : s.counter + 1 < 4096)
    (hop : ((s.memory s.counter <<< 8) ||| s.memory (s.counter + 1)) % 65536 = op) :
    s.Cycle =
      match selectHandler op with
      | .ok g =>
        match (s.latched op).callHandler g with
        | .ok s3 => .ok s3.tick
        | .error e => .error e
      | .error e => .error e := by
  have hc' : s.counter + 1 < MEMORY_SIZE := hc
  unfold Chip8.Cycle selectHandler
  simp only [hc', if_true, hop]
  simp only [latched_opcode, Chip8.latched]
  cases hr : fetchHandler table (0xF + 1) ((op &&& 0xF000) >>> 12) with
  | error e => rfl
  | ok f =>
    cases f
    case Table0 =>
      simp only [Chip8.call, Chip8.Table0]
      cases fetchHandler table0 (0xE + 1) (op &&& 0x000F) <;> rfl
    case Table8 =>
      simp only [Chip8.call, Chip8.Table8]
      cases fetchHandler table8 (0xE + 1) (op &&& 0x000F) <;> rfl
    case TableE =>
      simp only [Chip8.call, Chip8.TableE]
      cases fetchHandler tableE (0xE + 1) (op &&& 0x000F) <;> rfl
    case TableF =>
      simp only [Chip8.call, Chip8.TableF]
      cases fetchHandler tableF (0x65 + 1) (op &&& 0x00FF) <;> rfl
    all_goals rfl

theorem fetchHandler_ok (t : Nat → Option Chip8Func) (size i : Nat) (g : Chip8Func)
    (h : fetchHandler t size i = .ok g) : i < size ∧ t i = some g := by
  unfold fetchHandler at h
  split_ifs at h with hlt
  · refine ⟨hlt, ?_⟩
    cases ht : t i with
    | none => rw [ht] at h; cases h
    | some f => rw [ht] at h; cases h; rfl

/-- The entries of `tableF`. -/
theorem tableF_shape (j : Nat) (g : Chip8Func) (h : tableF j = some g) :
    (g = Chip8Func.OP_Fx15 ↔ j = 0x15) ∧ (g = Chip8Func.OP_Fx18 ↔ j = 0x18) ∧
    (g = Chip8Func.OP_Fx07 ↔ j = 0x07) ∧ (g = Chip8Func.OP_Fx33 ↔ j = 0x33) ∧
    (g = Chip8Func.OP_Fx55 ↔ j = 0x55) ∧ (g = Chip8Func.OP_Fx65 ↔ j = 0x65) ∧
    g ≠ Chip8Func.OP_Dxyn := by
  simp only [tableF, assign, tableInit] at h
  split_ifs at h with h1 h2 h3 h4 h5 h6 h7 h8 h9 h10
  all_goals
    cases h
    first
      | subst h1; decide
      | subst h2; decide
      | subst h3; decide
      | subst h4; decide
      | subst h5; decide
      | subst h6; decide
      | subst h7; decide
      | subst h8; decide
      | subst h9; decide
      | subst h10; decide

/-- The entries of `table0`, `table8` and `tableE` are none of the handlers that write a
timer, read the delay timer, access memory through the index register, or draw. -/
theorem low_tables_shape (j : Nat) (g : Chip8Func)
    (h : table0 j = some g ∨ table8 j = some g ∨ tableE j = some g) :
    g ≠ Chip8Func.OP_Fx15 ∧ g ≠ Chip8Func.OP_Fx18 ∧ g ≠ Chip8Func.OP_Fx07 ∧
    g ≠ Chip8Func.OP_Fx33 ∧ g ≠ Chip8Func.OP_Fx55 ∧ g ≠ Chip8Func.OP_Fx65 ∧
    g ≠ Chip8Func.OP_Dxyn := by
  rcases h with h | h | h
  · simp only [table0, assign, tableInit] at h
    split_ifs at h <;> cases h <;> decide
  · simp only [table8, assign, tableInit] at h
    split_ifs at h <;> cases h <;> decide
  · simp only [tableE, assign, tableInit] at h
    split_ifs at h <;> cases h <;> decide

/-- Which opcodes select the handlers that write a timer, read the delay timer, access
memory through the index register, or draw. -/
theorem selectHandler_shape (op : Nat) (g : Chip8Func) (h : selectHandler op = .ok g) :
    (g = Chip8Func.OP_Fx15 ↔ op / 4096 % 16 = 0xF ∧ op % 256 = 0x15) ∧
    (g = Chip8Func.OP_Fx18 ↔ op / 4096 % 16 = 0xF ∧ op % 256 = 0x18) ∧
    (g = Chip8Func.OP_Fx07 ↔ op / 4096 % 16 = 0xF ∧ op % 256 = 0x07) ∧
    (g = Chip8Func.OP_Fx33 ↔ op / 4096 % 16 = 0xF ∧ op % 256 = 0x33) ∧
    (g = Chip8Func.OP_Fx55 ↔ op / 4096 % 16 = 0xF ∧ op % 256 = 0x55) ∧
    (g = Chip8Func.OP_Fx65 ↔ op / 4096 % 16 = 0xF ∧ op % 256 = 0x65) ∧
    (g = Chip8Func.OP_Dxyn ↔ op / 4096 % 16 = 0xD) := by
  unfold selectHandler at h
  rw [field_top, field_n, field_kk] at h
  have hk : op / 4096 % 16 < 16 := Nat.mod_lt _ (by decide)
  generalize op / 4096 % 16 = k at h hk ⊢
  interval_cases k
  case «0» =>
    have hf : fetchHandler table (0xF + 1) 0 = .ok Chip8Func.Table0 := rfl
    simp only [hf] at h
    obtain ⟨-, h2⟩ := fetchHandler_ok _ _ _ _ h
    obtain ⟨n1, n2, n3, n4, n5, n6, n7⟩ := low_tables_shape _ g (Or.inl h2)
    simp [n1, n2, n3, n4, n5, n6, n7]
  case «1» =>
    have hf : fetchHandler table (0xF + 1) 1 = .ok Chip8Func.OP_1nnn := rfl
    simp only [hf] at h
    cases h
    simp
  case «2» =>
    have hf : fetchHandler table (0xF + 1) 2 = .ok Chip8Func.OP_2nnn := rfl
    simp only [hf] at h
    cases h
    simp
  case «3» =>
    have hf : fetchHandler table (0xF + 1) 3 = .ok Chip8Func.OP_3xkk := rfl
    simp only [hf] at h
    cases h
    simp
  case «4» =>
    have hf : fetchHandler table (0xF + 1) 4 = .ok Chip8Func.OP_4xkk := rfl
    simp only [hf] at h
    cases h
    simp
  case «5» =>
    have hf : fetchHandler table (0xF + 1) 5 = .ok Chip8Func.OP_5xy0 := rfl
    simp only [hf] at h
    cases h
    simp
  case «6» =>
    have hf : fetchHandler table (0xF + 1) 6 = .ok Chip8Func.OP_6xkk := rfl
    simp only [hf] at h
    cases h
    simp
  case «7» =>
    have hf : fetchHandler table (0xF + 1) 7 = .ok Chip8Func.OP_7xkk := rfl
    simp only [hf] at h
    cases h
    simp
  case «8» =>
    have hf : fetchHandler table (0xF + 1) 8 = .ok Chip8Func.Table8 := rfl
    simp only [hf] at h
    obtain ⟨-, h2⟩ := fetchHandler_ok _ _ _ _ h
    obtain ⟨n1, n2, n3, n4, n5, n6, n7⟩ := low_tables_shape _ g (Or.inr (Or.inl h2))
    simp [n1, n2, n3, n4, n5, n6, n7]
  case «9» =>
    have hf : fetchHandler table (0xF + 1) 9 = .ok Chip8Func.OP_9xy0 := rfl
    simp only [hf] at h
    cases h
    simp
  case «10» =>
    have hf : fetchHandler table (0xF + 1) 10 = .ok Chip8Func.OP_Annn := rfl
    simp only [hf] at h
    cases h
    simp
  case «11» =>
    have hf : fetchHandler table (0xF + 1) 11 = .ok Chip8Func.OP_Bnnn := rfl
    simp only [hf] at h
    cases h
    simp
  case «12» =>
    have hf : fetchHandler table (0xF + 1) 12 = .ok Chip8Func.OP_Cxkk := rfl
    simp only [hf] at h
    cases h
    simp
  case «13» =>
    have hf : fetchHandler table (0xF + 1) 13 = .ok Chip8Func.OP_Dxyn := rfl
    simp only [hf] at h
    cases h
    simp
  case «14» =>
    have hf : fetchHandler table (0xF + 1) 14 = .ok Chip8Func.TableE := rfl
    simp only [hf] at h
    obtain ⟨-, h2⟩ := fetchHandler_ok _ _ _ _ h
    obtain ⟨n1, n2, n3, n4, n5, n6, n7⟩ := low_tables_shape _ g (Or.inr (Or.inr h2))
    simp [n1, n2, n3, n4, n5, n6, n7]
  case «15» =>
    have hf : fetchHandler table (0xF + 1) 15 = .ok Chip8Func.TableF := rfl
    simp only [hf] at h
    obtain ⟨-, h2⟩ := fetchHandler_ok _ _ _ _ h
    obtain ⟨e1, e2, e3, e4, e5, e6, n7⟩ := tableF_shape _ g h2
    simp [e1, e2, e3, e4, e5, e6, n7]

/-! ## What the handlers leave alone -/

/-- A property kept by every successful iteration holds after a successful loop. -/
theorem forLoop_ok_preserves {σ : Type} (P : σ → Prop) (body : Nat → σ → Except Fault σ)
    (hbody : ∀ i s t, P s → body i s = .ok t → P t) :
    ∀ n s t, P s → forLoop body n s = .ok t → P t := by
  intro n
  induction n with
  | zero =>
    intro s t hs h
    cases h
    exact hs
  | succ n ih =>
    intro s t hs h
    rw [forLoop_succ] at h
    cases hr : forLoop body n s with
    | error e => rw [hr] at h; cases h
    | ok u =>
      rw [hr] at h
      exact hbody n u t (ih s u hs hr) h

/-- A loop that faults does so in one of its iterations, entered in a state that has every
property kept by the successful iterations. -/
theorem forLoop_error {σ : Type} (P : σ → Prop) (body : Nat → σ → Except Fault σ)
    (hbody : ∀ i s t, P s → body i s = .ok t → P t) :
    ∀ n s e, P s → forLoop body n s = .error e →
      ∃ i u, i < n ∧ P u ∧ body i u = .error e := by
  intro n
  induction n with
  | zero =>
    intro s e hs h
    cases h
  | succ n ih =>
    intro s e hs h
    rw [forLoop_succ] at h
    cases hr : forLoop body n s with
    | error e' =>
      rw [hr] at h
      cases h
      obtain ⟨i, u, hi, hu, hb⟩ := ih s e hs hr
      exact ⟨i, u, by omega, hu, hb⟩
    | ok u =>
      rw [hr] at h
      exact ⟨n, u, by omega, forLoop_ok_preserves P body hbody n s u hs hr, h⟩

/-- A successful `drawPixel` keeps the timers, the stack pointer, memory, the index and
the opcode. -/
theorem drawPixel_frame (b xPos yPos row col : Nat) (s t : Chip8)
    (h : Chip8.drawPixel b xPos yPos row col s = .ok t) :
    t.delayTimer = s.delayTimer ∧ t.soundTimer = s.soundTimer ∧ t.sp = s.sp ∧
      t.memory = s.memory ∧ t.index = s.index ∧ t.opcode = s.opcode := by
  unfold Chip8.drawPixel at h
  simp only at h
  split_ifs at h <;> cases h <;> exact ⟨rfl, rfl, rfl, rfl, rfl, rfl⟩

/-- A `drawPixel` never faults on a memory access. -/
theorem drawPixel_error (b xPos yPos row col : Nat) (s : Chip8) (e : Fault)
    (h : Chip8.drawPixel b xPos yPos row col s = .error e) : e = .displayOutOfBounds := by
  unfold Chip8.drawPixel at h
  simp only at h
  split_ifs at h
  all_goals cases h
  rfl

/-- A successful `drawRow` keeps the timers, the stack pointer, memory, the index and the
opcode. -/
theorem drawRow_frame (xPos yPos row : Nat) (s t : Chip8)
    (h : Chip8.drawRow xPos yPos row s = .ok t) :
    t.delayTimer = s.delayTimer ∧ t.soundTimer = s.soundTimer ∧ t.sp = s.sp ∧
      t.memory = s.memory ∧ t.index = s.index ∧ t.opcode = s.opcode := by
  unfold Chip8.drawRow at h
  split_ifs at h
  exact forLoop_ok_preserves
    (fun u => u.delayTimer = s.delayTimer ∧ u.soundTimer = s.soundTimer ∧ u.sp = s.sp ∧
      u.memory = s.memory ∧ u.index = s.index ∧ u.opcode = s.opcode) _
    (fun i u v hu hv => by
      obtain ⟨h1, h2, h3, h4, h5, h6⟩ := drawPixel_frame _ _ _ _ _ u v hv
      exact ⟨h1.trans hu.1, h2.trans hu.2.1, h3.trans hu.2.2.1, h4.trans hu.2.2.2.1,
        h5.trans hu.2.2.2.2.1, h6.trans hu.2.2.2.2.2⟩)
    width s t ⟨rfl, rfl, rfl, rfl, rfl, rfl⟩ h

/-- A `drawRow` faults on a memory access only when its row byte lies at or above 4096. -/
theorem drawRow_error (xPos yPos row : Nat) (s : Chip8)
    (h : Chip8.drawRow xPos yPos row s = .error .memoryOutOfBounds) :
    4096 ≤ s.index + row := by
  unfold Chip8.drawRow at h
  split_ifs at h with hlt
  · obtain ⟨i, u, -, -, hb⟩ := forLoop_error (fun _ => True) _ (fun _ _ _ _ _ => trivial)
      width s _ trivial h
    have := drawPixel_error _ _ _ _ _ _ _ hb
    cases this
  · exact Nat.le_of_not_lt hlt

/-- A successful `OP_Dxyn` keeps the timers, the stack pointer, memory, the index and the
opcode. -/
theorem OP_Dxyn_frame (s t : Chip8) (h : s.OP_Dxyn = .ok t) :
    t.delayTimer = s.delayTimer ∧ t.soundTimer = s.soundTimer ∧ t.sp = s.sp ∧
      t.memory = s.memory ∧ t.index = s.index ∧ t.opcode = s.opcode := by
  unfold Chip8.OP_Dxyn at h
  exact forLoop_ok_preserves
    (fun u => u.delayTimer = s.delayTimer ∧ u.soundTimer = s.soundTimer ∧ u.sp = s.sp ∧
      u.memory = s.memory ∧ u.index = s.index ∧ u.opcode = s.opcode) _
    (fun i u v hu hv => by
      obtain ⟨h1, h2, h3, h4, h5, h6⟩ := drawRow_frame _ _ _ u v hv
      exact ⟨h1.trans hu.1, h2.trans hu.2.1, h3.trans hu.2.2.1, h4.trans hu.2.2.2.1,
        h5.trans hu.2.2.2.2.1, h6.trans hu.2.2.2.2.2⟩)
    _ _ t ⟨rfl, rfl, rfl, rfl, rfl, rfl⟩ h

/-- The handler `OP_Dxyn` faults on a memory access only when one of its `n` row bytes lies
at or above 4096. -/
theorem OP_Dxyn_error (s : Chip8) (h : s.OP_Dxyn = .error .memoryOutOfBounds) :
    4096 < s.index + (s.opcode &&& 0x000F) := by
  unfold Chip8.OP_Dxyn at h
  simp only at h
  obtain ⟨i, u, hi, hu, hb⟩ := forLoop_error
    (fun u : Chip8 => u.index = s.index) _
    (fun i u v hu hv => (drawRow_frame _ _ _ u v hv).2.2.2.2.1.trans hu)
    _ _ _ (by rfl) h
  have h1 := drawRow_error _ _ _ _ hb
  rw [hu] at h1
  omega

/-- A successful `OP_Fx55` keeps the timers and the stack pointer. -/
theorem OP_Fx55_frame (s t : Chip8) (h : s.OP_Fx55 = .ok t) :
    t.delayTimer = s.delayTimer ∧ t.soundTimer = s.soundTimer ∧ t.sp = s.sp := by
  unfold Chip8.OP_Fx55 at h
  exact forLoop_ok_preserves
    (fun u => u.delayTimer = s.delayTimer ∧ u.soundTimer = s.soundTimer ∧ u.sp = s.sp) _
    (fun i u v hu hv => by
      split_ifs at hv
      cases hv
      exact hu)
    _ _ t ⟨rfl, rfl, rfl⟩ h

/-- A successful `OP_Fx65` keeps the timers and the stack pointer. -/
theorem OP_Fx65_frame (s t : Chip8) (h : s.OP_Fx65 = .ok t) :
    t.delayTimer = s.delayTimer ∧ t.soundTimer = s.soundTimer ∧ t.sp = s.sp := by
  unfold Chip8.OP_Fx65 at h
  exact forLoop_ok_preserves
    (fun u => u.delayTimer = s.delayTimer ∧ u.soundTimer = s.soundTimer ∧ u.sp = s.sp) _
    (fun i u v hu hv => by
      split_ifs at hv
      cases hv
      exact hu)
    _ _ t ⟨rfl, rfl, rfl⟩ h

/-- The handler `OP_Fx0A` keeps the timers and the stack pointer. -/
theorem OP_Fx0A_frame (s : Chip8) :
    s.OP_Fx0A.delayTimer = s.delayTimer ∧ s.OP_Fx0A.soundTimer = s.soundTimer ∧
      s.OP_Fx0A.sp = s.sp := by
  by_cases hp : ∃ k, k < 16 ∧ s.keypad k ≠ 0
  · obtain ⟨k, -, -, -, heq⟩ := OP_Fx0A_pressed s hp
    rw [heq]
    exact ⟨rfl, rfl, rfl⟩
  · have hkeys : ∀ k, k < 16 → s.keypad k = 0 := by
      intro k hk
      by_contra hne
      exact hp ⟨k, hk, hne⟩
    rw [OP_Fx0A_idle s hkeys]
    exact ⟨rfl, rfl, rfl⟩

/-- What a handler that returns leaves in the timers and the stack pointer: only `OP_Fx15`
writes the delay timer, only `OP_Fx18` writes the sound timer, `OP_Fx07` copies the delay
timer into `register[x]`, and the stack pointer stays within 0..16. -/
theorem callHandler_frame (g : Chip8Func) (s t : Chip8) (h : s.callHandler g = .ok t) :
    t.delayTimer =
      (if g = Chip8Func.OP_Fx15 then s.registers ((s.opcode &&& 0x0F00) >>> 8)
        else s.delayTimer) ∧
    t.soundTimer =
      (if g = Chip8Func.OP_Fx18 then s.registers ((s.opcode &&& 0x0F00) >>> 8)
        else s.soundTimer) ∧
    (g = Chip8Func.OP_Fx07 → t.registers ((s.opcode &&& 0x0F00) >>> 8) = s.delayTimer) ∧
    (s.sp ≤ 16 → t.sp ≤ 16) := by
  cases g
  case OP_00EE =>
    simp only [Chip8.callHandler, Chip8.OP_00EE] at h
    split_ifs at h with hlt
    cases h
    refine ⟨rfl, rfl, ?_, ?_⟩
    · intro hg
      cases hg
    · intro _
      show (s.sp + 255) % 256 ≤ 16
      have hlt' : (s.sp + 255) % 256 < 16 := hlt
      omega
  case OP_2nnn =>
    simp only [Chip8.callHandler, Chip8.OP_2nnn] at h
    split_ifs at h with hlt
    cases h
    refine ⟨rfl, rfl, ?_, ?_⟩
    · intro hg
      cases hg
    · intro _
      show (s.sp + 1) % 256 ≤ 16
      have hlt' : s.sp < 16 := hlt
      omega
  case OP_Dxyn =>
    have key : t.delayTimer = s.delayTimer ∧ t.soundTimer = s.soundTimer ∧ t.sp = s.sp := by
      obtain ⟨h1, h2, h3, -⟩ := OP_Dxyn_frame s t h
      exact ⟨h1, h2, h3⟩
    refine ⟨key.1, key.2.1, ?_, ?_⟩
    · intro hg
      cases hg
    · intro hs
      rw [key.2.2]
      exact hs
  case OP_Fx55 =>
    have key := OP_Fx55_frame s t h
    refine ⟨key.1, key.2.1, ?_, ?_⟩
    · intro hg
      cases hg
    · intro hs
      rw [key.2.2]
      exact hs
  case OP_Fx65 =>
    have key := OP_Fx65_frame s t h
    refine ⟨key.1, key.2.1, ?_, ?_⟩
    · intro hg
      cases hg
    · intro hs
      rw [key.2.2]
      exact hs
  case OP_Fx0A =>
    simp only [Chip8.callHandler, Except.ok.injEq] at h
    subst h
    have key := OP_Fx0A_frame s
    refine ⟨key.1, key.2.1, ?_, ?_⟩
    · intro hg
      cases hg
    · intro hs
      rw [key.2.2]
      exact hs
  case OP_Fx33 =>
    have key : t.delayTimer = s.delayTimer ∧ t.soundTimer = s.soundTimer ∧ t.sp = s.sp := by
      simp only [Chip8.callHandler, Chip8.OP_Fx33] at h
      split_ifs at h
      cases h
      exact ⟨rfl, rfl, rfl⟩
    refine ⟨key.1, key.2.1, ?_, ?_⟩
    · intro hg
      cases hg
    · intro hs
      rw [key.2.2]
      exact hs
  case OP_Ex9E =>
    have key : t.delayTimer = s.delayTimer ∧ t.soundTimer = s.soundTimer ∧ t.sp = s.sp := by
      simp only [Chip8.callHandler, Chip8.OP_Ex9E] at h
      split_ifs at h
      all_goals
        cases h
        exact ⟨rfl, rfl, rfl⟩
    refine ⟨key.1, key.2.1, ?_, ?_⟩
    · intro hg
      cases hg
    · intro hs
      rw [key.2.2]
      exact hs
  case OP_ExA1 =>
    have key : t.delayTimer = s.delayTimer ∧ t.soundTimer = s.soundTimer ∧ t.sp = s.sp := by
      simp only [Chip8.callHandler, Chip8.OP_ExA1] at h
      split_ifs at h
      all_goals
        cases h
        exact ⟨rfl, rfl, rfl⟩
    refine ⟨key.1, key.2.1, ?_, ?_⟩
    · intro hg
      cases hg
    · intro hs
      rw [key.2.2]
      exact hs
  case OP_3xkk =>
    have key : t.delayTimer = s.delayTimer ∧ t.soundTimer = s.soundTimer ∧ t.sp = s.sp := by
      simp only [Chip8.callHandler, Chip8.OP_3xkk, Except.ok.injEq] at h
      subst h
      split_ifs
      all_goals exact ⟨rfl, rfl, rfl⟩
    refine ⟨key.1, key.2.1, ?_, ?_⟩
    · intro hg
      cases hg
    · intro hs
      rw [key.2.2]
      exact hs
  case OP_4xkk =>
    have key : t.delayTimer = s.delayTimer ∧ t.soundTimer = s.soundTimer ∧ t.sp = s.sp := by
      simp only [Chip8.callHandler, Chip8.OP_4xkk, Except.ok.injEq] at h
      subst h
      split_ifs
      all_goals exact ⟨rfl, rfl, rfl⟩
    refine ⟨key.1, key.2.1, ?_, ?_⟩
    · intro hg
      cases hg
    · intro hs
      rw [key.2.2]
      exact hs
  case OP_5xy0 =>
    have key : t.delayTimer = s.delayTimer ∧ t.soundTimer = s.soundTimer ∧ t.sp = s.sp := by
      simp only [Chip8.callHandler, Chip8.OP_5xy0, Except.ok.injEq] at h
      subst h
      split_ifs
      all_goals exact ⟨rfl, rfl, rfl⟩
    refine ⟨key.1, key.2.1, ?_, ?_⟩
    · intro hg
      cases hg
    · intro hs
      rw [key.2.2]
      exact hs
  case OP_9xy0 =>
    have key : t.delayTimer = s.delayTimer ∧ t.soundTimer = s.soundTimer ∧ t.sp = s.sp := by
      simp only [Chip8.callHandler, Chip8.OP_9xy0, Except.ok.injEq] at h
      subst h
      split_ifs
      all_goals exact ⟨rfl, rfl, rfl⟩
    refine ⟨key.1, key.2.1, ?_, ?_⟩
    · intro hg
      cases hg
    · intro hs
      rw [key.2.2]
      exact hs
  case OP_8xy4 =>
    have key : t.delayTimer = s.delayTimer ∧ t.soundTimer = s.soundTimer ∧ t.sp = s.sp := by
      simp only [Chip8.callHandler, Chip8.OP_8xy4, Except.ok.injEq] at h
      subst h
      split_ifs
      all_goals exact ⟨rfl, rfl, rfl⟩
    refine ⟨key.1, key.2.1, ?_, ?_⟩
    · intro hg
      cases hg
    · intro hs
      rw [key.2.2]
      exact hs
  case OP_8xy5 =>
    have key : t.delayTimer = s.delayTimer ∧ t.soundTimer = s.soundTimer ∧ t.sp = s.sp := by
      simp only [Chip8.callHandler, Chip8.OP_8xy5, Except.ok.injEq] at h
      subst h
      split_ifs
      all_goals exact ⟨rfl, rfl, rfl⟩
    refine ⟨key.1, key.2.1, ?_, ?_⟩
    · intro hg
      cases hg
    · intro hs
      rw [key.2.2]
      exact hs
  case OP_8xy7 =>
    have key : t.delayTimer = s.delayTimer ∧ t.soundTimer = s.soundTimer ∧ t.sp = s.sp := by
      simp only [Chip8.callHandler, Chip8.OP_8xy7, Except.ok.injEq] at h
      subst h
      split_ifs
      all_goals exact ⟨rfl, rfl, rfl⟩
    refine ⟨key.1, key.2.1, ?_, ?_⟩
    · intro hg
      cases hg
    · intro hs
      rw [key.2.2]
      exact hs
  case OP_Fx15 =>
    cases h
    refine ⟨rfl, rfl, ?_, ?_⟩
    · intro hg
      cases hg
    · intro hs
      exact hs
  case OP_Fx18 =>
    cases h
    refine ⟨rfl, rfl, ?_, ?_⟩
    · intro hg
      cases hg
    · intro hs
      exact hs
  case OP_Fx07 =>
    cases h
    refine ⟨rfl, rfl, ?_, ?_⟩
    · intro _
      simp [Chip8.OP_Fx07]
    · intro hs
      exact hs
  case Table0 => cases h
  case Table8 => cases h
  case TableE => cases h
  case TableF => cases h
  all_goals
    cases h
    refine ⟨rfl, rfl, ?_, ?_⟩
    · intro hg
      cases hg
    · intro hs
      exact hs

/-! ## Timer tick -/

/-- The timer part of `Cycle` applies the tick of the specification to both timers. -/
theorem tick_timers (s : Chip8) :
    s.tick.delayTimer = tickValue s.delayTimer ∧ s.tick.soundTimer = tickValue s.soundTimer := by
  by_cases hd : s.delayTimer > 0 <;> by_cases hs : s.soundTimer > 0 <;>
    simp [Chip8.tick, tickValue, hd, hs] <;> omega

/-- Counterexample for C12: `F033` has a handler, but with index = 0xFFE the handler writes
`memory[index + 2]` at address 4096, so the cycle does not complete and leaves no timer
values. -/
theorem Cycle_timer_tick_needs_completion :
    selectHandler 0xF033 = .ok Chip8Func.OP_Fx33 ∧
    ({ Chip8.sampleImage [0xF0, 0x33] (fun _ => 0) (fun _ => 0) with index := 0xFFE }
      : Chip8).counter + 1 < 4096 ∧
    Chip8.Cycle { Chip8.sampleImage [0xF0, 0x33] (fun _ => 0) (fun _ => 0) with index := 0xFFE }
      = .error .memoryOutOfBounds :=
  ⟨rfl, by decide, rfl⟩

/-- C12 (amended): when the counter `c` has `c + 1 < 4096`, the fetched instruction `op` has
a handler `g` and that handler returns the state `s3`, the cycle returns a state whose
delay and sound timers are the ticks of the values `s3` holds; the handler leaves the
delay timer at `register[x]` for `Fx15` and at its pre-cycle value otherwise, the sound
timer at `register[x]` for `Fx18` and at its pre-cycle value otherwise; and `Fx07` leaves the
pre-cycle delay value in `register[x]`. -/
theorem Cycle_timer_tick (s s3 : Chip8) (g : Chip8Func) (hc : s.counter + 1 < 4096)
    (hhi : s.memory s.counter < 256) (hlo : s.memory (s.counter + 1) < 256)
    (hsel : selectHandler (s.memory s.counter * 256 + s.memory (s.counter + 1)) = .ok g)
    (hrun : (s.latched (s.memory s.counter * 256 + s.memory (s.counter + 1))).callHandler g
      = .ok s3) :
    ∃ t, s.Cycle = .ok t ∧
      t.delayTimer = tickValue s3.delayTimer ∧ t.soundTimer = tickValue s3.soundTimer ∧
      s3.delayTimer =
        (if (s.memory s.counter * 256 + s.memory (s.counter + 1)) / 4096 = 0xF ∧
            (s.memory s.counter * 256 + s.memory (s.counter + 1)) % 256 = 0x15 then
          s.registers ((s.memory s.counter * 256 + s.memory (s.counter + 1)) / 256 % 16)
        else s.delayTimer) ∧
      s3.soundTimer =
        (if (s.memory s.counter * 256 + s.memory (s.counter + 1)) / 4096 = 0xF ∧
            (s.memory s.counter * 256 + s.memory (s.counter + 1)) % 256 = 0x18 then
          s.registers ((s.memory s.counter * 256 + s.memory (s.counter + 1)) / 256 % 16)
        else s.soundTimer) ∧
      ((s.memory s.counter * 256 + s.memory (s.counter + 1)) / 4096 = 0xF ∧
          (s.memory s.counter * 256 + s.memory (s.counter + 1)) % 256 = 0x07 →
        t.registers ((s.memory s.counter * 256 + s.memory (s.counter + 1)) / 256 % 16)
          = s.delayTimer) := by
  generalize hop : s.memory s.counter * 256 + s.memory (s.counter + 1) = op at hsel hrun ⊢
  have hfetch : ((s.memory s.counter <<< 8) ||| s.memory (s.counter + 1)) % 65536 = op := by
    rw [fetch_eq _ _ hhi hlo, hop]
  have hgroup : op / 4096 % 16 = op / 4096 := by omega
  have hcyc : s.Cycle = .ok s3.tick := by
    rw [Cycle_eq_selectHandler s op hc hfetch, hsel]
    simp only [hrun]
  obtain ⟨e15, e18, e07, -⟩ := selectHandler_shape op g hsel
  rw [hgroup] at e15 e18 e07
  obtain ⟨hd, hs, h07, -⟩ := callHandler_frame g _ s3 hrun
  simp only [latched_opcode, latched_registers, latched_delayTimer, latched_soundTimer,
    field_x] at hd hs h07
  refine ⟨_, hcyc, (tick_timers s3).1, (tick_timers s3).2, ?_, ?_, ?_⟩
  · rw [hd]
    by_cases h : g = Chip8Func.OP_Fx15
    · rw [if_pos h, if_pos (e15.1 h)]
    · rw [if_neg h, if_neg (fun hh => h (e15.2 hh))]
  · rw [hs]
    by_cases h : g = Chip8Func.OP_Fx18
    · rw [if_pos h, if_pos (e18.1 h)]
    · rw [if_neg h, if_neg (fun hh => h (e18.2 hh))]
  · intro h
    rw [tick_registers]
    exact h07 (e07.2 h)

/-- Witness for C12: `F215` with V2 = 7 and a sound timer of 3 leaves delay = 6 and
sound = 2. -/
theorem Cycle_timer_tick_witness :
    selectHandler 0xF215 = .ok Chip8Func.OP_Fx15 ∧
    ∃ t, Chip8.Cycle
        { Chip8.sampleImage [0xF2, 0x15] (fun _ => 7) (fun _ => 0) with soundTimer := 3 }
        = .ok t ∧ t.delayTimer = 6 ∧ t.soundTimer = 2 := by
  obtain ⟨t, h, hd, hs, -⟩ :=
    Cycle_timer_tick
      { Chip8.sampleImage [0xF2, 0x15] (fun _ => 7) (fun _ => 0) with soundTimer := 3 }
      _ Chip8Func.OP_Fx15 (by decide) (by decide) (by decide) rfl rfl
  exact ⟨rfl, t, h, hd, hs⟩

/-! ## Call-stack bounds -/

/-- A cycle that returns keeps the stack pointer within 0..16. -/
theorem Cycle_sp (s t : Chip8) (hs : s.sp ≤ 16) (h : s.Cycle = .ok t) : t.sp ≤ 16 := by
  by_cases hc : s.counter + 1 < 4096
  · rw [Cycle_eq_selectHandler s _ hc rfl] at h
    cases hsel : selectHandler
        (((s.memory s.counter <<< 8) ||| s.memory (s.counter + 1)) % 65536) with
    | error e => rw [hsel] at h; cases h
    | ok g =>
      rw [hsel] at h
      simp only at h
      cases hrun : (s.latched
          (((s.memory s.counter <<< 8) ||| s.memory (s.counter + 1)) % 65536)).callHandler g with
      | error e => rw [hrun] at h; cases h
      | ok s3 =>
        rw [hrun] at h
        cases h
        rw [tick_sp]
        exact (callHandler_frame g _ s3 hrun).2.2.2 hs
  · have hc' : ¬ s.counter + 1 < MEMORY_SIZE := hc
    unfold Chip8.Cycle at h
    rw [if_neg hc'] at h
    cases h

/-- Cycles that all return keep the stack pointer within 0..16. -/
theorem cycles_sp (n : Nat) (s t : Chip8) (hs : s.sp ≤ 16) (h : s.cycles n = .ok t) :
    t.sp ≤ 16 := by
  induction n generalizing s with
  | zero =>
    cases h
    exact hs
  | succ n ih =>
    unfold Chip8.cycles at h
    cases hc : s.Cycle with
    | error e => rw [hc] at h; cases h
    | ok u =>
      rw [hc] at h
      exact ih u (Cycle_sp s u hs hc) h

/-- Loading an image does not touch the stack pointer. -/
theorem LoadROM_sp (file : Option (List Nat)) (s t : Chip8) (h : s.LoadROM file = .ok t) :
    t.sp = s.sp := by
  unfold Chip8.LoadROM at h
  cases file with
  | none =>
    cases h
    rfl
  | some buffer =>
    exact forLoop_ok_preserves (fun u : Chip8 => u.sp = s.sp) _
      (fun i u v hu hv => by
        split_ifs at hv
        cases hv
        exact hu)
      _ _ t rfl h

/-- The handler `OP_2nnn` with room on the stack. -/
theorem OP_2nnn_eq (s : Chip8) (h : s.sp < 16) :
    s.OP_2nnn = .ok { s with
      stack := Function.update s.stack s.sp s.counter
      sp := s.sp + 1
      counter := s.opcode &&& 0x0FFF } := by
  have h' : s.sp < STACK_LEVELS := h
  have hmod : (s.sp + 1) % 256 = s.sp + 1 := by omega
  simp only [Chip8.OP_2nnn, h', if_true, hmod]

/-- The handler `OP_00EE` with a nonempty stack. -/
theorem OP_00EE_eq (s : Chip8) (h0 : 0 < s.sp) (h16 : s.sp ≤ 16) :
    s.OP_00EE = .ok { s with sp := s.sp - 1, counter := s.stack (s.sp - 1) } := by
  have hmod : (s.sp + 255) % 256 = s.sp - 1 := by omega
  have h' : s.sp - 1 < STACK_LEVELS := by
    show s.sp - 1 < 16
    omega
  simp only [Chip8.OP_00EE, hmod, h', if_true]

/-- Counterexample for C18: on the fresh machine with the image `00 EE` the first cycle is
a Return with the stack pointer at 0, which reads `stack[255]`; with the image `22 00`
(a call to itself) sixteen cycles bring the stack pointer to 16 and the seventeenth is a
Call that writes `stack[16]`. -/
theorem stack_access_out_of_range :
    (∃ s0, (Chip8.create (fun _ => 0) 0).LoadROM (some [0x00, 0xEE]) = .ok s0 ∧ s0.sp = 0 ∧
      s0.Cycle = .error .stackOutOfBounds) ∧
    (∃ s0 t, (Chip8.create (fun _ => 0) 0).LoadROM (some [0x22, 0x00]) = .ok s0 ∧
      s0.cycles 16 = .ok t ∧ t.sp = 16 ∧ t.Cycle = .error .stackOutOfBounds) :=
  ⟨⟨_, rfl, rfl, rfl⟩, ⟨_, _, rfl, rfl, rfl, rfl⟩⟩

/-- C18 (amended): for every program image, every state reached from the freshly
constructed machine by cycles that all return has its stack pointer within 0..16; there a
Call with the stack pointer below 16 writes the slot `sp` and a Return with the stack
pointer above 0 reads the slot `sp - 1`, both inside the 16-entry stack. -/
theorem stack_pointer_invariant (image : List Nat) (rng : Nat → Nat) (opcode0 : Nat)
    (s0 t : Chip8) (n : Nat)
    (hload : (Chip8.create rng opcode0).LoadROM (some image) = .ok s0)
    (hrun : s0.cycles n = .ok t) :
    t.sp ≤ 16 ∧
    (t.sp < 16 → ∃ u, t.OP_2nnn = .ok u ∧
      u.stack = Function.update t.stack t.sp t.counter ∧ u.sp = t.sp + 1 ∧ u.sp ≤ 16) ∧
    (0 < t.sp → ∃ u, t.OP_00EE = .ok u ∧ u.counter = t.stack (t.sp - 1) ∧
      u.sp = t.sp - 1 ∧ t.sp - 1 < 16) := by
  have h0 : s0.sp = 0 := by
    rw [LoadROM_sp _ _ _ hload, create_eq]
  have hsp : t.sp ≤ 16 := cycles_sp n s0 t (by omega) hrun
  refine ⟨hsp, ?_, ?_⟩
  · intro hlt
    exact ⟨_, OP_2nnn_eq t hlt, rfl, rfl, by show t.sp + 1 ≤ 16; omega⟩
  · intro hpos
    exact ⟨_, OP_00EE_eq t hpos hsp, rfl, rfl, by omega⟩

/-- Witness for C18: the image `22 04 00 00 00 EE` after one cycle has the stack pointer
at 1. -/
theorem stack_pointer_invariant_witness :
    ∃ s0 t, (Chip8.create (fun _ => 0) 0).LoadROM (some [0x22, 0x04, 0, 0, 0x00, 0xEE])
        = .ok s0 ∧
      s0.cycles 1 = .ok t ∧ t.sp = 1 ∧ t.sp ≤ 16 ∧
      ∃ u, t.OP_00EE = .ok u ∧ u.sp = 0 := by
  obtain ⟨s0, t, hload, hrun, hsp1⟩ : ∃ s0 t,
      (Chip8.create (fun _ => 0) 0).LoadROM (some [0x22, 0x04, 0, 0, 0x00, 0xEE]) = .ok s0 ∧
      s0.cycles 1 = .ok t ∧ t.sp = 1 := ⟨_, _, rfl, rfl, rfl⟩
  obtain ⟨h1, -, h3⟩ := stack_pointer_invariant _ _ _ s0 t 1 hload hrun
  obtain ⟨u, hu, -, husp, -⟩ := h3 (by omega)
  exact ⟨s0, t, hload, hrun, hsp1, h1, u, hu, by omega⟩

/-! ## Memory bounds -/

/-- A table look-up does not fault on a memory access. -/
theorem fetchHandler_error (t : Nat → Option Chip8Func) (size i : Nat)
    (h : fetchHandler t size i = .error .memoryOutOfBounds) : False := by
  unfold fetchHandler at h
  split_ifs at h
  · cases ht : t i with
    | none => rw [ht] at h; cases h
    | some f => rw [ht] at h; cases h
  · cases h

/-- Selecting the handler does not fault on a memory access. -/
theorem selectHandler_error (op : Nat) (h : selectHandler op = .error .memoryOutOfBounds) :
    False := by
  unfold selectHandler at h
  cases hr : fetchHandler table (0xF + 1) ((op &&& 0xF000) >>> 12) with
  | error e =>
    rw [hr] at h
    simp only at h
    cases h
    exact fetchHandler_error _ _ _ hr
  | ok f =>
    rw [hr] at h
    cases f
    case Table0 => exact fetchHandler_error _ _ _ h
    case Table8 => exact fetchHandler_error _ _ _ h
    case TableE => exact fetchHandler_error _ _ _ h
    case TableF => exact fetchHandler_error _ _ _ h
    all_goals cases h

/-- The handler `OP_Fx33` faults only when `index + 2` is at or above 4096. -/
theorem OP_Fx33_error (s : Chip8) (e : Fault) (h : s.OP_Fx33 = .error e) :
    4096 ≤ s.index + 2 := by
  unfold Chip8.OP_Fx33 at h
  simp only at h
  by_contra hlt
  have h2 : s.index + 2 < MEMORY_SIZE := by
    show s.index + 2 < 4096
    omega
  have h1 : s.index + 1 < MEMORY_SIZE := by
    show s.index + 1 < 4096
    omega
  have h0 : s.index < MEMORY_SIZE := by
    show s.index < 4096
    omega
  rw [if_pos h2, if_pos h1, if_pos h0] at h
  cases h

/-- The handler `OP_Fx55` faults only when `index + x` is at or above 4096. -/
theorem OP_Fx55_error (s : Chip8) (e : Fault) (h : s.OP_Fx55 = .error e) :
    4096 ≤ s.index + (s.opcode &&& 0x0F00) >>> 8 := by
  unfold Chip8.OP_Fx55 at h
  simp only at h
  obtain ⟨i, u, hi, hu, hb⟩ := forLoop_error (fun u : Chip8 => u.index = s.index) _
    (fun i u v hu hv => by
      split_ifs at hv
      cases hv
      exact hu)
    _ _ _ (by rfl) h
  split_ifs at hb with hlt
  have hge : ¬ u.index + i < 4096 := hlt
  rw [hu] at hge
  omega

/-- The handler `OP_Fx65` faults only when `index + x` is at or above 4096. -/
theorem OP_Fx65_error (s : Chip8) (e : Fault) (h : s.OP_Fx65 = .error e) :
    4096 ≤ s.index + (s.opcode &&& 0x0F00) >>> 8 := by
  unfold Chip8.OP_Fx65 at h
  simp only at h
  obtain ⟨i, u, hi, hu, hb⟩ := forLoop_error (fun u : Chip8 => u.index = s.index) _
    (fun i u v hu hv => by
      split_ifs at hv
      cases hv
      exact hu)
    _ _ _ (by rfl) h
  split_ifs at hb with hlt
  have hge : ¬ u.index + i < 4096 := hlt
  rw [hu] at hge
  omega

/-- A handler faults on a memory access only when it is one of `OP_Dxyn`, `OP_Fx33`,
`OP_Fx55`, `OP_Fx65` and its memory operand reaches address 4096. -/
theorem callHandler_memory_fault (g : Chip8Func) (s : Chip8)
    (h : s.callHandler g = .error .memoryOutOfBounds) :
    (g = Chip8Func.OP_Dxyn ∧ 4096 < s.index + (s.opcode &&& 0x000F)) ∨
    (g = Chip8Func.OP_Fx33 ∧ 4096 ≤ s.index + 2) ∨
    ((g = Chip8Func.OP_Fx55 ∨ g = Chip8Func.OP_Fx65) ∧
      4096 ≤ s.index + (s.opcode &&& 0x0F00) >>> 8) := by
  cases g
  case OP_Dxyn => exact Or.inl ⟨rfl, OP_Dxyn_error s h⟩
  case OP_Fx33 => exact Or.inr (Or.inl ⟨rfl, OP_Fx33_error s _ h⟩)
  case OP_Fx55 => exact Or.inr (Or.inr ⟨Or.inl rfl, OP_Fx55_error s _ h⟩)
  case OP_Fx65 => exact Or.inr (Or.inr ⟨Or.inr rfl, OP_Fx65_error s _ h⟩)
  case OP_00EE =>
    simp only [Chip8.callHandler, Chip8.OP_00EE] at h
    split_ifs at h
    cases h
  case OP_2nnn =>
    simp only [Chip8.callHandler, Chip8.OP_2nnn] at h
    split_ifs at h
    cases h
  case OP_Ex9E =>
    simp only [Chip8.callHandler, Chip8.OP_Ex9E] at h
    split_ifs at h
    all_goals cases h
  case OP_ExA1 =>
    simp only [Chip8.callHandler, Chip8.OP_ExA1] at h
    split_ifs at h
    all_goals cases h
  all_goals cases h

/-- Counterexample for C19: on the fresh machine the 4-byte image `AF FF F0 33` sets index
to 0xFFF and then stores BCD digits at `index + 2` = 4097; the 2-byte image `1F FF` jumps to
0xFFF, where the next fetch reads `memory[counter + 1]` at address 4096. -/
theorem memory_access_out_of_range :
    (∃ s0 t, (Chip8.create (fun _ => 0) 0).LoadROM (some [0xAF, 0xFF, 0xF0, 0x33]) = .ok s0 ∧
      s0.cycles 1 = .ok t ∧ t.index = 0xFFF ∧ t.Cycle = .error .memoryOutOfBounds) ∧
    (∃ s0 t, (Chip8.create (fun _ => 0) 0).LoadROM (some [0x1F, 0xFF]) = .ok s0 ∧
      s0.cycles 1 = .ok t ∧ t.counter = 0xFFF ∧ t.Cycle = .error .memoryOutOfBounds) :=
  ⟨⟨_, _, rfl, rfl, rfl, rfl⟩, ⟨_, _, rfl, rfl, rfl, rfl⟩⟩

/-- C19 (amended): in a state whose counter `c` has `c + 1 < 4096` (the two fetch addresses
are in range) and in which the memory operand of the fetched instruction fits — `index + n
≤ 4096` for `Dxyn`, `index + 2 < 4096` for `Fx33`, `index + x < 4096` for `Fx55` and `Fx65` —
no memory access of the cycle is out of range. -/
theorem Cycle_memory_in_range (s : Chip8) (hc : s.counter + 1 < 4096)
    (hhi : s.memory s.counter < 256) (hlo : s.memory (s.counter + 1) < 256)
    (hfit : memoryOperandsFit s (s.memory s.counter * 256 + s.memory (s.counter + 1))) :
    s.Cycle ≠ .error .memoryOutOfBounds := by
  generalize hop : s.memory s.counter * 256 + s.memory (s.counter + 1) = op at hfit
  have hfetch : ((s.memory s.counter <<< 8) ||| s.memory (s.counter + 1)) % 65536 = op := by
    rw [fetch_eq _ _ hhi hlo, hop]
  have hgroup : op / 4096 % 16 = op / 4096 := by omega
  obtain ⟨fD, f33, f55⟩ := hfit
  intro h
  rw [Cycle_eq_selectHandler s op hc hfetch] at h
  cases hsel : selectHandler op with
  | error e =>
    rw [hsel] at h
    simp only at h
    cases h
    exact selectHandler_error op hsel
  | ok g =>
    rw [hsel] at h
    simp only at h
    obtain ⟨-, -, -, e33, e55, e65, eD⟩ := selectHandler_shape op g hsel
    rw [hgroup] at e33 e55 e65 eD
    cases hrun : (s.latched op).callHandler g with
    | ok s3 => rw [hrun] at h; cases h
    | error e =>
      rw [hrun] at h
      cases h
      have hm := callHandler_memory_fault g _ hrun
      simp only [latched_index, latched_opcode, field_n, field_x] at hm
      rcases hm with ⟨hg, hb⟩ | ⟨hg, hb⟩ | ⟨hg | hg, hb⟩
      · have := fD (eD.1 hg)
        omega
      · have := f33 (e33.1 hg).1 (e33.1 hg).2
        omega
      · have := f55 (e55.1 hg).1 (Or.inl (e55.1 hg).2)
        omega
      · have := f55 (e65.1 hg).1 (Or.inr (e65.1 hg).2)
        omega

/-- Witness for C19: `F233` with index 0x300 has its three bytes below 4096. -/
theorem Cycle_memory_in_range_witness :
    memoryOperandsFit
      { Chip8.sampleImage [0xF2, 0x33] (fun _ => 254) (fun _ => 0) with index := 0x300 }
      0xF233 ∧
    Chip8.Cycle
      { Chip8.sampleImage [0xF2, 0x33] (fun _ => 254) (fun _ => 0) with index := 0x300 }
      ≠ .error .memoryOutOfBounds := by
  have hfit : memoryOperandsFit
      { Chip8.sampleImage [0xF2, 0x33] (fun _ => 254) (fun _ => 0) with index := 0x300 }
      0xF233 := by
    unfold memoryOperandsFit
    decide
  exact ⟨hfit, Cycle_memory_in_range
    { Chip8.sampleImage [0xF2, 0x33] (fun _ => 254) (fun _ => 0) with index := 0x300 }
    (by decide) (by decide) (by decide) hfit⟩
